import Mathlib

/-!
Verification development for the PyBoyAdvance Game Boy Advance emulator core.

The Python source is shallowly embedded: Python's unbounded integers become
Nat (or Int where the source can produce negative intermediate values), with
masking (% 2^w, &&& mask) written exactly where the source masks.  Mutable
objects become explicit state records; methods become functions from state to
state.  Effects (memory accesses, scheduled events, raised interrupts) are
collected in explicit logs where a claim talks about them.
-/

namespace PyBoyAdvance

/-! ## Executable bitwise operations

Nat.land, Nat.lor, Nat.xor and Nat.ldiff are all built on Nat.bitwise, which
is defined by well-founded recursion and therefore does not reduce inside the
kernel.  To keep every definition evaluable on concrete inputs, the embedding
uses structurally recursive (fuel-indexed) equivalents; pyAnd_eq, pyOr_eq,
pyXor_eq and pyLdiff_eq prove them equal to the standard operations, so all
bitwise lemmas of the library remain available. -/

/-- Binary fold of a boolean bit operation over two naturals, with structural
fuel.  The fuel only needs to exceed the bit length of both arguments. -/
def pyBitsAux (f : Bool → Bool → Bool) : Nat → Nat → Nat → Nat
  | 0, _, _ => 0
  | fuel + 1, n, m =>
    if n = 0 ∧ m = 0 then 0
    else
      (if f (decide (n % 2 = 1)) (decide (m % 2 = 1)) then 1 else 0) +
        2 * pyBitsAux f fuel (n / 2) (m / 2)

theorem testBit_pyBitsAux (f : Bool → Bool → Bool) (hf : f false false = false) :
    ∀ fuel n m, n < 2 ^ fuel → m < 2 ^ fuel → ∀ i,
      (pyBitsAux f fuel n m).testBit i = f (n.testBit i) (m.testBit i) := by
  intro fuel
  induction fuel with
  | zero =>
    intro n m hn hm i
    have h1 : (2 : Nat) ^ 0 = 1 := rfl
    have hn0 : n = 0 := by omega
    have hm0 : m = 0 := by omega
    subst hn0; subst hm0
    simp [pyBitsAux, Nat.zero_testBit, hf]
  | succ fuel ih =>
    intro n m hn hm i
    have hp : (2 : Nat) ^ (fuel + 1) = 2 * 2 ^ fuel := by rw [Nat.pow_succ]; ring
    have hb1 : n / 2 < 2 ^ fuel := by omega
    have hb2 : m / 2 < 2 ^ fuel := by omega
    by_cases h00 : n = 0 ∧ m = 0
    · obtain ⟨e1, e2⟩ := h00
      subst e1; subst e2
      simp [pyBitsAux, Nat.zero_testBit, hf]
    · have hbit : (if f (decide (n % 2 = 1)) (decide (m % 2 = 1)) then 1 else 0) ≤ 1 := by
        split <;> omega
      cases i with
      | zero =>
        simp only [pyBitsAux, if_neg h00]
        rw [Nat.testBit_zero, Nat.testBit_zero, Nat.testBit_zero]
        have hmod : ((if f (decide (n % 2 = 1)) (decide (m % 2 = 1)) then 1 else 0) +
            2 * pyBitsAux f fuel (n / 2) (m / 2)) % 2 =
            (if f (decide (n % 2 = 1)) (decide (m % 2 = 1)) then 1 else 0) := by
          omega
        rw [hmod]
        by_cases hfb : f (decide (n % 2 = 1)) (decide (m % 2 = 1)) <;> simp [hfb]
      | succ i =>
        simp only [pyBitsAux, if_neg h00]
        rw [Nat.testBit_add_one]
        have hdiv : ((if f (decide (n % 2 = 1)) (decide (m % 2 = 1)) then 1 else 0) +
            2 * pyBitsAux f fuel (n / 2) (m / 2)) / 2 =
            pyBitsAux f fuel (n / 2) (m / 2) := by
          omega
        rw [hdiv, ih (n / 2) (m / 2) hb1 hb2 i, Nat.testBit_div_two, Nat.testBit_div_two]

theorem pyBitsAux_eq_bitwise (f : Bool → Bool → Bool) (hf : f false false = false)
    (fuel n m : Nat) (hn : n < 2 ^ fuel) (hm : m < 2 ^ fuel) :
    pyBitsAux f fuel n m = Nat.bitwise f n m := by
  apply Nat.eq_of_testBit_eq
  intro i
  rw [testBit_pyBitsAux f hf fuel n m hn hm i, Nat.testBit_bitwise hf]

theorem lt_two_pow_add (n k : Nat) : n < 2 ^ (n + k) :=
  Nat.lt_of_lt_of_le (Nat.lt_two_pow n) (Nat.pow_le_pow_right (by norm_num) (by omega))

/-- Executable bitwise AND (Python's n & m on nonnegative ints). -/
def pyAnd (n m : Nat) : Nat := pyBitsAux and (n + m + 1) n m

/-- Executable bitwise OR (Python's n | m on nonnegative ints). -/
def pyOr (n m : Nat) : Nat := pyBitsAux or (n + m + 1) n m

/-- Executable bitwise XOR (Python's n ^ m on nonnegative ints). -/
def pyXor (n m : Nat) : Nat := pyBitsAux bne (n + m + 1) n m

/-- Executable bitwise difference (Python's n & ~m on a nonnegative n). -/
def pyLdiff (n m : Nat) : Nat := pyBitsAux (fun a b => a && not b) (n + m + 1) n m

theorem pyAnd_eq (n m : Nat) : pyAnd n m = n &&& m :=
  pyBitsAux_eq_bitwise and rfl (n + m + 1) n m (lt_two_pow_add n (m + 1))
    (by
      have h := lt_two_pow_add m (n + 1)
      have e : m + (n + 1) = n + m + 1 := by omega
      rw [e] at h
      exact h)

theorem pyOr_eq (n m : Nat) : pyOr n m = n ||| m :=
  pyBitsAux_eq_bitwise or rfl (n + m + 1) n m (lt_two_pow_add n (m + 1))
    (by
      have h := lt_two_pow_add m (n + 1)
      have e : m + (n + 1) = n + m + 1 := by omega
      rw [e] at h
      exact h)

theorem pyXor_eq (n m : Nat) : pyXor n m = n ^^^ m :=
  pyBitsAux_eq_bitwise bne rfl (n + m + 1) n m (lt_two_pow_add n (m + 1))
    (by
      have h := lt_two_pow_add m (n + 1)
      have e : m + (n + 1) = n + m + 1 := by omega
      rw [e] at h
      exact h)

theorem pyLdiff_eq (n m : Nat) : pyLdiff n m = Nat.ldiff n m :=
  pyBitsAux_eq_bitwise (fun a b => a && not b) rfl (n + m + 1) n m (lt_two_pow_add n (m + 1))
    (by
      have h := lt_two_pow_add m (n + 1)
      have e : m + (n + 1) = n + m + 1 := by omega
      rw [e] at h
      exact h)

/-! ## utils.py -/

/-- Embeds utils.get_bit: (num >> i) & 1. -/
def get_bit (num i : Nat) : Nat := pyAnd (num >>> i) 1

/-- Embeds utils.get_bits: (num >> start) & ((1 << (end - start + 1)) - 1). -/
def get_bits (num start stop : Nat) : Nat :=
  pyAnd (num >>> start) ((1 <<< (stop - start + 1)) - 1)

/-- Embeds utils.set_bit: (num & ~(1 << i)) | (bit << i). -/
def set_bit (num i bit : Nat) : Nat :=
  pyOr (pyLdiff num (1 <<< i)) (bit <<< i)

/-- Embeds utils.sign_32: bit 31. -/
def sign_32 (num : Nat) : Nat := get_bit num 31

/-- Embeds utils.interpret_signed_32: num - 2^32 when bit 31 is set. -/
def interpret_signed_32 (num : Nat) : Int :=
  if sign_32 num = 1 then (num : Int) - (1 <<< 32) else (num : Int)

/-- Embeds utils.ror_32: ((num >> amount) | (num << (32 - amount))) & 0xFFFFFFFF. -/
def ror_32 (num amount : Nat) : Nat :=
  pyAnd (pyOr (num >>> amount) (num <<< (32 - amount))) 0xFFFFFFFF

/-! ## cpu/constants.py -/

/-- Embeds cpu.constants.ShiftType. -/
inductive ShiftType where
  | LSL
  | LSR
  | ASR
  | ROR
deriving DecidableEq, Repr

/-! ## CPU.compute_shift (cpu/cpu.py)

The source method reads self.regs.cpsr.carry_flag (a 0/1 int); the embedding
takes that flag as the first argument and returns the pair
(result, carry_out).  Python's bool results False/True are the ints 0/1.
Python's arithmetic right shift of a possibly negative int is floor division
by a power of two (Int.fdiv), and masking a negative int with 0xFFFFFFFF is
taking the nonnegative remainder mod 2^32 (Int.emod). -/

/-- Embeds CPU.compute_shift. -/
def compute_shift (carry_flag : Nat) (value : Nat) (shift_type : ShiftType)
    (shift_amount : Nat) (immediate : Bool) : Nat × Nat :=
  if ¬ immediate ∧ shift_amount = 0 then
    (value, carry_flag)
  else
    match shift_type with
    | ShiftType.LSL =>
      if shift_amount = 0 then
        (value, carry_flag)
      else if shift_amount < 32 then
        (pyAnd (value <<< shift_amount) 0xFFFFFFFF, get_bit value (32 - shift_amount))
      else if shift_amount = 32 then
        (0, get_bit value 0)
      else
        (0, 0)
    | ShiftType.LSR =>
      if shift_amount = 0 then
        (0, get_bit value 31)
      else if shift_amount < 32 then
        (value >>> shift_amount, get_bit value (shift_amount - 1))
      else if shift_amount = 32 then
        (0, get_bit value 31)
      else
        (0, 0)
    | ShiftType.ASR =>
      if shift_amount = 0 ∨ shift_amount ≥ 32 then
        (if get_bit value 31 = 1 then 0xFFFFFFFF else 0, get_bit value 31)
      else
        (((Int.fdiv (interpret_signed_32 value) (2 ^ shift_amount)) % (2 ^ 32 : Int)).toNat,
         get_bit value (shift_amount - 1))
    | ShiftType.ROR =>
      let shift_amount := if shift_amount > 32 then (shift_amount - 1) % 32 + 1 else shift_amount
      if shift_amount = 0 then
        (pyOr (value >>> 1) (carry_flag <<< 31), get_bit value 0)
      else
        (ror_32 value (get_bits shift_amount 0 4), get_bit value (shift_amount - 1))

/-! ## cpu/arm/alu.py (flag-setting ADD/SUB cores)

The source impl functions mutate cpu.regs.cpsr (a plain 32-bit register
updated through the sign/zero/carry/overflow bit setters) and return the
truncated result.  The embedding takes the cpsr register value and returns
(truncated result, new cpsr register value).  Python bool flag values are the
ints 0/1.  In arm_alu_add_impl, ~(op1 ^ op2) & (op2 ^ result) applies the
complement of a nonnegative int, so the conjunction is the bitwise
difference ldiff (op2 ^^^ result) (op1 ^^^ op2). -/

/-- Embeds cpu.registers ProgramStatusRegister sign/zero/carry/overflow
setters applied in the order the ALU impl functions apply them. -/
def psr_set_nzcv (cpsr sgn zro carry overflow : Nat) : Nat :=
  set_bit (set_bit (set_bit (set_bit cpsr 31 sgn) 30 zro) 29 carry) 28 overflow

/-- Embeds arm_alu_sub_impl: result = op1 - op2 (a Python int, possibly
negative), truncated_result = result & 0xFFFFFFFF. -/
def arm_alu_sub_impl (cpsr op1 op2 : Nat) (rd : Nat) (set_cond_codes : Bool) :
    Nat × Nat :=
  let result : Int := (op1 : Int) - (op2 : Int)
  let truncated_result : Nat := (result % (2 ^ 32 : Int)).toNat
  if set_cond_codes ∧ rd ≠ 15 then
    (truncated_result,
     psr_set_nzcv cpsr
       (sign_32 truncated_result)
       (if truncated_result = 0 then 1 else 0)
       (if op1 ≥ op2 then 1 else 0)
       (sign_32 (pyAnd (pyXor op1 op2) (pyXor op1 truncated_result))))
  else
    (truncated_result, cpsr)

/-- Embeds arm_alu_add_impl: result = op1 + op2, truncated_result =
result & 0xFFFFFFFF. -/
def arm_alu_add_impl (cpsr op1 op2 : Nat) (rd : Nat) (set_cond_codes : Bool) :
    Nat × Nat :=
  let result : Nat := op1 + op2
  let truncated_result : Nat := pyAnd result 0xFFFFFFFF
  if set_cond_codes ∧ rd ≠ 15 then
    (truncated_result,
     psr_set_nzcv cpsr
       (sign_32 truncated_result)
       (if truncated_result = 0 then 1 else 0)
       (if result > 0xFFFFFFFF then 1 else 0)
       (sign_32 (pyLdiff (pyXor op2 truncated_result) (pyXor op1 op2))))
  else
    (truncated_result, cpsr)

/-- Embeds arm_alu_cmp: arm_alu_sub_impl with rd = 0 and flags forced on. -/
def arm_alu_cmp (cpsr op1 op2 : Nat) : Nat × Nat :=
  arm_alu_sub_impl cpsr op1 op2 0 true

/-- Embeds arm_alu_cmn: arm_alu_add_impl with rd = 0 and flags forced on. -/
def arm_alu_cmn (cpsr op1 op2 : Nat) : Nat × Nat :=
  arm_alu_add_impl cpsr op1 op2 0 true

/-! ## Bit-access helper lemmas -/

theorem get_bit_eq_testBit (num i : Nat) : get_bit num i = (num.testBit i).toNat := by
  have h : num.testBit i = decide ((num >>> i) % 2 = 1) := by
    rw [Nat.testBit_to_div_mod, Nat.shiftRight_eq_div_pow]
  rw [get_bit, pyAnd_eq, Nat.and_one_is_mod, h]
  rcases Nat.mod_two_eq_zero_or_one (num >>> i) with h2 | h2 <;> simp [h2]

theorem get_bit_set_bit (num i j : Nat) (b : Nat) (hb : b ≤ 1) :
    get_bit (set_bit num i b) j = if j = i then b else get_bit num j := by
  rw [get_bit_eq_testBit, get_bit_eq_testBit]
  have h1 : (1 <<< i) = 2 ^ i := by rw [Nat.shiftLeft_eq, Nat.one_mul]
  rw [set_bit, pyOr_eq, pyLdiff_eq, h1, Nat.testBit_lor, Nat.testBit_ldiff,
    Nat.testBit_shiftLeft, Nat.testBit_two_pow]
  by_cases h : j = i
  · subst h
    simp only [decide_True, Bool.not_true, Bool.and_false, Bool.false_or, if_pos rfl,
      Nat.sub_self, Nat.le_refl, Bool.true_and]
    interval_cases b
    all_goals simp
  · have hne : i ≠ j := Ne.symm h
    simp only [if_neg h, hne, decide_False, Bool.not_false, Bool.and_true]
    by_cases hij : i ≤ j
    · have hbt : b.testBit (j - i) = false := by
        apply Nat.testBit_lt_two_pow
        calc b < 2 ^ 1 := by omega
          _ ≤ 2 ^ (j - i) := Nat.pow_le_pow_right (by norm_num) (by omega)
      simp [hij, hbt]
    · simp [hij]

theorem get_bit_lt_two (num i : Nat) : get_bit num i ≤ 1 := by
  rw [get_bit_eq_testBit]; cases num.testBit i <;> simp

/-! ## Claim C4: barrel shifter edge cases -/

/-- Claim C4: for every 32-bit value and carry flag, immediate LSR #0 equals
LSR #32 (result 0, carry = bit 31); immediate ASR #0 equals ASR #32 (result
sign-filled, carry = bit 31); immediate ROR #0 is RRX (result =
(value >> 1) | (carry << 31), carry = bit 0); and LSL by more than 32 yields
result 0 with carry-out 0. -/
theorem compute_shift_edge_cases (c v : Nat) :
    (compute_shift c v ShiftType.LSR 0 true = compute_shift c v ShiftType.LSR 32 true ∧
     compute_shift c v ShiftType.LSR 0 true = (0, get_bit v 31)) ∧
    (compute_shift c v ShiftType.ASR 0 true = compute_shift c v ShiftType.ASR 32 true ∧
     compute_shift c v ShiftType.ASR 0 true =
       ((if get_bit v 31 = 1 then 0xFFFFFFFF else 0), get_bit v 31)) ∧
    (compute_shift c v ShiftType.ROR 0 true = (pyOr (v >>> 1) (c <<< 31), get_bit v 0)) ∧
    (∀ amount, 32 < amount → ∀ imm,
      compute_shift c v ShiftType.LSL amount imm = (0, 0)) := by
  refine ⟨⟨?_, ?_⟩, ⟨?_, ?_⟩, ?_, ?_⟩
  · rfl
  · rfl
  · rfl
  · rfl
  · rfl
  · intro amount h imm
    have h0 : amount ≠ 0 := by omega
    have h1 : ¬ amount < 32 := by omega
    have h2 : amount ≠ 32 := by omega
    cases imm <;> simp [compute_shift, h0, h1, h2]

/-- Witness for compute_shift_edge_cases at value 5, carry 1, LSL amount 33. -/
theorem compute_shift_edge_cases_witness :
    32 < 33 ∧ compute_shift 1 5 ShiftType.LSL 33 true = (0, 0) :=
  ⟨by decide, (compute_shift_edge_cases 1 5).2.2.2 33 (by decide) true⟩

/-! ## Claim C5: carry/overflow flag rules for ADD/SUB -/

/-- Claim C5: for every pair of 32-bit operands, the flag-setting subtraction
core (used by SUB and CMP) sets carry = (op1 >= op2) and overflow = bit 31 of
((op1 XOR op2) AND (op1 XOR result)), and the flag-setting addition core
(used by ADD and CMN) sets carry = (op1 + op2 > 0xFFFFFFFF) and overflow =
bit 31 of (NOT(op1 XOR op2) AND (op2 XOR result)), where result is the
difference or sum truncated mod 2^32. -/
theorem sign_32_le_one (n : Nat) : sign_32 n ≤ 1 := get_bit_lt_two n 31

theorem ite_one_zero_le_one (p : Prop) [Decidable p] : (if p then 1 else 0 : Nat) ≤ 1 := by
  split <;> norm_num

theorem get_bit_psr_set_nzcv (cpsr s z c o j : Nat)
    (hs : s ≤ 1) (hz : z ≤ 1) (hc : c ≤ 1) (ho : o ≤ 1) :
    get_bit (psr_set_nzcv cpsr s z c o) j =
      if j = 28 then o else if j = 29 then c else if j = 30 then z
      else if j = 31 then s else get_bit cpsr j := by
  unfold psr_set_nzcv
  rw [get_bit_set_bit _ _ _ _ ho, get_bit_set_bit _ _ _ _ hc,
    get_bit_set_bit _ _ _ _ hz, get_bit_set_bit _ _ _ _ hs]

theorem sign_32_ldiff_formula (x y : Nat) :
    sign_32 (pyLdiff x y) = get_bit (((2 ^ 32 - 1) ^^^ y) &&& x) 31 := by
  rw [sign_32, pyLdiff_eq, get_bit_eq_testBit, get_bit_eq_testBit]
  congr 1
  rw [Nat.testBit_ldiff, Nat.testBit_and, Nat.testBit_xor]
  have h31 : ((2 ^ 32 - 1 : Nat)).testBit 31 = true := by decide
  rw [h31, Bool.true_xor]
  exact Bool.and_comm _ _

theorem alu_flag_rules (cpsr op1 op2 : Nat) (h1 : op1 < 2 ^ 32) (h2 : op2 < 2 ^ 32) :
    (∀ rd : Nat, rd ≠ 15 →
      (arm_alu_sub_impl cpsr op1 op2 rd true).1 = (op1 + (2 ^ 32 - op2)) % 2 ^ 32 ∧
      get_bit (arm_alu_sub_impl cpsr op1 op2 rd true).2 29 =
        (if op1 ≥ op2 then 1 else 0) ∧
      get_bit (arm_alu_sub_impl cpsr op1 op2 rd true).2 28 =
        get_bit ((op1 ^^^ op2) &&& (op1 ^^^ (arm_alu_sub_impl cpsr op1 op2 rd true).1)) 31) ∧
    (∀ rd : Nat, rd ≠ 15 →
      (arm_alu_add_impl cpsr op1 op2 rd true).1 = (op1 + op2) % 2 ^ 32 ∧
      get_bit (arm_alu_add_impl cpsr op1 op2 rd true).2 29 =
        (if op1 + op2 > 0xFFFFFFFF then 1 else 0) ∧
      get_bit (arm_alu_add_impl cpsr op1 op2 rd true).2 28 =
        get_bit (((2 ^ 32 - 1) ^^^ (op1 ^^^ op2)) &&&
          (op2 ^^^ (arm_alu_add_impl cpsr op1 op2 rd true).1)) 31) := by
  constructor
  · intro rd hrd
    have e1 : arm_alu_sub_impl cpsr op1 op2 rd true =
        (((((op1 : Int) - op2) % (2 ^ 32 : Int)).toNat),
         psr_set_nzcv cpsr
           (sign_32 ((((op1 : Int) - op2) % (2 ^ 32 : Int)).toNat))
           (if ((((op1 : Int) - op2) % (2 ^ 32 : Int)).toNat) = 0 then 1 else 0)
           (if op1 ≥ op2 then 1 else 0)
           (sign_32 (pyAnd (pyXor op1 op2)
             (pyXor op1 ((((op1 : Int) - op2) % (2 ^ 32 : Int)).toNat))))) := by
      simp [arm_alu_sub_impl, hrd]
    refine ⟨?_, ?_, ?_⟩
    · rw [e1]; omega
    · rw [e1]
      rw [get_bit_psr_set_nzcv _ _ _ _ _ _ (sign_32_le_one _) (ite_one_zero_le_one _)
        (ite_one_zero_le_one _) (sign_32_le_one _)]
      norm_num
    · rw [e1]
      rw [get_bit_psr_set_nzcv _ _ _ _ _ _ (sign_32_le_one _) (ite_one_zero_le_one _)
        (ite_one_zero_le_one _) (sign_32_le_one _)]
      norm_num [sign_32, pyAnd_eq, pyXor_eq, get_bit_eq_testBit]
  · intro rd hrd
    have e2 : arm_alu_add_impl cpsr op1 op2 rd true =
        (pyAnd (op1 + op2) 0xFFFFFFFF,
         psr_set_nzcv cpsr
           (sign_32 (pyAnd (op1 + op2) 0xFFFFFFFF))
           (if pyAnd (op1 + op2) 0xFFFFFFFF = 0 then 1 else 0)
           (if op1 + op2 > 0xFFFFFFFF then 1 else 0)
           (sign_32 (pyLdiff (pyXor op2 (pyAnd (op1 + op2) 0xFFFFFFFF)) (pyXor op1 op2)))) := by
      simp [arm_alu_add_impl, hrd]
    have hmask : pyAnd (op1 + op2) 0xFFFFFFFF = (op1 + op2) % 2 ^ 32 := by
      have hm : (0xFFFFFFFF : Nat) = 2 ^ 32 - 1 := by norm_num
      rw [pyAnd_eq, hm, Nat.and_pow_two_sub_one_eq_mod]
    refine ⟨?_, ?_, ?_⟩
    · rw [e2, hmask]
    · rw [e2]
      rw [get_bit_psr_set_nzcv _ _ _ _ _ _ (sign_32_le_one _) (ite_one_zero_le_one _)
        (ite_one_zero_le_one _) (sign_32_le_one _)]
      norm_num
    · rw [e2]
      rw [get_bit_psr_set_nzcv _ _ _ _ _ _ (sign_32_le_one _) (ite_one_zero_le_one _)
        (ite_one_zero_le_one _) (sign_32_le_one _)]
      norm_num [pyXor_eq, sign_32_ldiff_formula]

/-- Witness for alu_flag_rules at op1 = 0x7FFFFFFF, op2 = 1, rd = 2 (the
spec scenario S1: ADDS producing a signed overflow with carry clear). -/
theorem alu_flag_rules_witness :
    (0x7FFFFFFF : Nat) < 2 ^ 32 ∧ (1 : Nat) < 2 ^ 32 ∧ (2 : Nat) ≠ 15 ∧
    ((arm_alu_add_impl 0 0x7FFFFFFF 1 2 true).1 = (0x7FFFFFFF + 1) % 2 ^ 32 ∧
      get_bit (arm_alu_add_impl 0 0x7FFFFFFF 1 2 true).2 29 =
        (if 0x7FFFFFFF + 1 > 0xFFFFFFFF then 1 else 0) ∧
      get_bit (arm_alu_add_impl 0 0x7FFFFFFF 1 2 true).2 28 =
        get_bit (((2 ^ 32 - 1) ^^^ (0x7FFFFFFF ^^^ 1)) &&&
          (1 ^^^ (arm_alu_add_impl 0 0x7FFFFFFF 1 2 true).1)) 31) :=
  ⟨by decide, by decide, by decide,
    (alu_flag_rules 0 0x7FFFFFFF 1 (by decide) (by decide)).2 2 (by decide)⟩

/-! ## cpu/constants.py CPUMode and cpu/registers.py

Registers holds the 16 visible registers (regs, with SP = regs 13 and
LR = regs 14 exactly as the sp/lr properties read and write them), the CPSR
and SPSR register words, the System/User and FIQ copies of R8..R12
(indices 0..4), and the per-bank SP/LR/SPSR stores.  Python lists become
functions updated with Function.update; the per-index loops of the FIQ
R8..R12 swap touch disjoint indices, so they are written as simultaneous
pointwise updates. -/

/-- Embeds cpu.constants.CPUMode. -/
inductive CPUMode where
  | USER
  | FIQ
  | IRQ
  | SWI
  | ABORT
  | UNDEFINED
  | SYSTEM
deriving DecidableEq, Repr

/-- Numeric values of cpu.constants.CPUMode. -/
def CPUMode.toNat : CPUMode → Nat
  | USER => 0b10000
  | FIQ => 0b10001
  | IRQ => 0b10010
  | SWI => 0b10011
  | ABORT => 0b10111
  | UNDEFINED => 0b11011
  | SYSTEM => 0b11111

/-- Inverse of CPUMode.toNat: the partial enum constructor CPUMode(value). -/
def cpuModeOfNat (n : Nat) : Option CPUMode :=
  if n = 0b10000 then some CPUMode.USER
  else if n = 0b10001 then some CPUMode.FIQ
  else if n = 0b10010 then some CPUMode.IRQ
  else if n = 0b10011 then some CPUMode.SWI
  else if n = 0b10111 then some CPUMode.ABORT
  else if n = 0b11011 then some CPUMode.UNDEFINED
  else if n = 0b11111 then some CPUMode.SYSTEM
  else none

/-- Embeds registers.BankIndex. -/
inductive BankIndex where
  | SYSTEM_USER
  | FIQ
  | IRQ
  | SWI
  | ABORT
  | UNDEFINED
deriving DecidableEq, Repr

/-- Embeds BankIndex.from_cpu_mode. -/
def BankIndex.from_cpu_mode : CPUMode → BankIndex
  | CPUMode.SYSTEM => BankIndex.SYSTEM_USER
  | CPUMode.USER => BankIndex.SYSTEM_USER
  | CPUMode.FIQ => BankIndex.FIQ
  | CPUMode.IRQ => BankIndex.IRQ
  | CPUMode.SWI => BankIndex.SWI
  | CPUMode.ABORT => BankIndex.ABORT
  | CPUMode.UNDEFINED => BankIndex.UNDEFINED

/-- Embeds ProgramStatusRegister.mode (the getter): CPUMode(reg & 0b11111).
The Python enum constructor raises on an unmapped value, so the embedding is
partial. -/
def psr_mode (reg : Nat) : Option CPUMode := cpuModeOfNat (pyAnd reg 0b11111)

/-- Embeds the ProgramStatusRegister.mode setter:
reg = (reg & ~0b11111) | mode. -/
def psr_set_mode (reg : Nat) (m : CPUMode) : Nat :=
  pyOr (pyLdiff reg 0b11111) m.toNat

/-- Embeds registers.Registers (state only; regs 13/14/15 are SP/LR/PC). -/
structure Registers where
  regs : Nat → Nat
  cpsr : Nat
  spsr : Nat
  banked_old_gpr : Nat → Nat
  banked_fiq_gpr : Nat → Nat
  banked_sp : BankIndex → Nat
  banked_lr : BankIndex → Nat
  banked_spsr : BankIndex → Nat

/-- Embeds Registers.switch_mode.  The source returns early when the new mode
equals the current CPSR mode; otherwise it saves SP/LR/SPSR into the old
mode's bank, loads them from the new mode's bank (reading the bank lists
after the saves), and swaps R8..R12 with the FIQ copies when entering or
leaving FIQ. -/
def switch_mode (r : Registers) (new_mode : CPUMode) : Registers :=
  match psr_mode r.cpsr with
  | none => r
  | some old_mode =>
    if new_mode = old_mode then r
    else
      let old_bank := BankIndex.from_cpu_mode old_mode
      let new_bank := BankIndex.from_cpu_mode new_mode
      let banked_sp := Function.update r.banked_sp old_bank (r.regs 13)
      let banked_lr := Function.update r.banked_lr old_bank (r.regs 14)
      let banked_spsr := Function.update r.banked_spsr old_bank r.spsr
      let regs1 := Function.update (Function.update r.regs 13 (banked_sp new_bank))
        14 (banked_lr new_bank)
      let cpsr1 := psr_set_mode r.cpsr new_mode
      let spsr1 := banked_spsr new_bank
      if new_mode = CPUMode.FIQ then
        { regs := fun j => if 8 ≤ j ∧ j ≤ 12 then r.banked_fiq_gpr (j - 8) else regs1 j
          cpsr := cpsr1
          spsr := spsr1
          banked_old_gpr := fun i => if i < 5 then r.regs (i + 8) else r.banked_old_gpr i
          banked_fiq_gpr := r.banked_fiq_gpr
          banked_sp := banked_sp
          banked_lr := banked_lr
          banked_spsr := banked_spsr }
      else if old_mode = CPUMode.FIQ then
        { regs := fun j => if 8 ≤ j ∧ j ≤ 12 then r.banked_old_gpr (j - 8) else regs1 j
          cpsr := cpsr1
          spsr := spsr1
          banked_old_gpr := r.banked_old_gpr
          banked_fiq_gpr := fun i => if i < 5 then r.regs (i + 8) else r.banked_fiq_gpr i
          banked_sp := banked_sp
          banked_lr := banked_lr
          banked_spsr := banked_spsr }
      else
        { regs := regs1
          cpsr := cpsr1
          spsr := spsr1
          banked_old_gpr := r.banked_old_gpr
          banked_fiq_gpr := r.banked_fiq_gpr
          banked_sp := banked_sp
          banked_lr := banked_lr
          banked_spsr := banked_spsr }

/-- The tie-break predicate named by the claim: exactly zero or both of the
two modes are FIQ. -/
def zero_or_both_fiq (a b : CPUMode) : Prop :=
  (a ≠ CPUMode.FIQ ∧ b ≠ CPUMode.FIQ) ∨ (a = CPUMode.FIQ ∧ b = CPUMode.FIQ)

instance (a b : CPUMode) : Decidable (zero_or_both_fiq a b) := by
  unfold zero_or_both_fiq; infer_instance

theorem psr_mode_set_mode (reg : Nat) (m : CPUMode) :
    psr_mode (psr_set_mode reg m) = some m := by
  have h : (Nat.ldiff reg 0b11111 ||| m.toNat) &&& 0b11111 = m.toNat := by
    apply Nat.eq_of_testBit_eq
    intro i
    rw [Nat.testBit_and, Nat.testBit_lor, Nat.testBit_ldiff]
    have h31 : (0b11111 : Nat) = 2 ^ 5 - 1 := by norm_num
    rw [h31, Nat.testBit_two_pow_sub_one]
    by_cases hi : i < 5
    · simp [hi]
    · have hm : m.toNat.testBit i = false := by
        apply Nat.testBit_lt_two_pow
        have h5 : (2 : Nat) ^ 5 ≤ 2 ^ i := Nat.pow_le_pow_right (by norm_num) (by omega)
        cases m <;> simp [CPUMode.toNat] <;> omega
      simp [hi, hm]
  rw [psr_mode, psr_set_mode, pyAnd_eq, pyOr_eq, pyLdiff_eq, h]
  cases m <;> rfl

theorem from_cpu_mode_eq_fiq (m : CPUMode) :
    BankIndex.from_cpu_mode m = BankIndex.FIQ ↔ m = CPUMode.FIQ := by
  cases m <;> decide

set_option maxHeartbeats 2000000 in
/-- Claim C3 (amended): starting in any valid mode A, the call sequence
switch_mode(B); switch_mode(A) with no other register mutations restores SP,
LR, SPSR, and also the visible registers R8..R12, for every pair of modes
A, B — including when exactly one of {A, B} is FIQ (the FIQ swap is
symmetric, so the claimed iff direction fails; see the counterexample). -/
theorem switch_mode_round_trip (r : Registers) (A B : CPUMode)
    (hmode : psr_mode r.cpsr = some A) :
    (switch_mode (switch_mode r B) A).regs 13 = r.regs 13 ∧
    (switch_mode (switch_mode r B) A).regs 14 = r.regs 14 ∧
    (switch_mode (switch_mode r B) A).spsr = r.spsr ∧
    ∀ j, 8 ≤ j → j ≤ 12 → (switch_mode (switch_mode r B) A).regs j = r.regs j := by
  cases A <;> cases B <;>
    refine ⟨?_, ?_, ?_, fun j h8 h12 => ?_⟩ <;>
    first
    | (simp_all [switch_mode, psr_mode_set_mode, Function.update_apply,
        BankIndex.from_cpu_mode]
       done)
    | (have hj : j - 8 + 8 = j := by omega
       have hj5 : j - 8 < 5 := by omega
       have h13 : j ≠ 13 := by omega
       have h14 : j ≠ 14 := by omega
       simp_all [switch_mode, psr_mode_set_mode, Function.update_apply,
         BankIndex.from_cpu_mode]
       done)

/-- Witness for switch_mode_round_trip at a concrete state with mode SWI and
target mode IRQ. -/
theorem switch_mode_round_trip_witness :
    psr_mode 0b10011 = some CPUMode.SWI ∧
    (switch_mode (switch_mode
      { regs := fun j => 100 + j, cpsr := 0b10011, spsr := 7,
        banked_old_gpr := fun i => 200 + i, banked_fiq_gpr := fun i => 300 + i,
        banked_sp := fun _ => 400, banked_lr := fun _ => 500,
        banked_spsr := fun _ => 600 } CPUMode.IRQ) CPUMode.SWI).regs 13 = 113 :=
  ⟨by decide,
    (switch_mode_round_trip
      { regs := fun j => 100 + j, cpsr := 0b10011, spsr := 7,
        banked_old_gpr := fun i => 200 + i, banked_fiq_gpr := fun i => 300 + i,
        banked_sp := fun _ => 400, banked_lr := fun _ => 500,
        banked_spsr := fun _ => 600 } CPUMode.SWI CPUMode.IRQ (by decide)).1⟩

/-- Counterexample to claim C3 as stated: with A = USER and B = FIQ exactly
one of the two modes is FIQ, yet the round trip restores the visible
registers R8..R12 (here to 108..112), so the claimed "if and only if" fails
in the only-if direction. -/
theorem switch_mode_fiq_iff_counterexample :
    ¬ zero_or_both_fiq CPUMode.USER CPUMode.FIQ ∧
    ((switch_mode (switch_mode
        { regs := fun j => 100 + j, cpsr := 0b10000, spsr := 7,
          banked_old_gpr := fun i => 200 + i, banked_fiq_gpr := fun i => 300 + i,
          banked_sp := fun _ => 400, banked_lr := fun _ => 500,
          banked_spsr := fun _ => 600 } CPUMode.FIQ) CPUMode.USER).regs 8 = 108 ∧
     (switch_mode (switch_mode
        { regs := fun j => 100 + j, cpsr := 0b10000, spsr := 7,
          banked_old_gpr := fun i => 200 + i, banked_fiq_gpr := fun i => 300 + i,
          banked_sp := fun _ => 400, banked_lr := fun _ => 500,
          banked_spsr := fun _ => 600 } CPUMode.FIQ) CPUMode.USER).regs 12 = 112) := by
  refine ⟨by decide, by decide, by decide⟩

/-! ## scheduler.py and the CPython heapq algorithm

scheduler.Event is a dataclass whose ordering (Event.__lt__) compares the
absolute fire time only.  The scheduler keeps a heapq-managed list of events;
heapq is CPython's array-backed binary min-heap.  The push and pop paths
(heappush = append + _siftdown; heappop = pop last, move to root, _siftup)
are embedded verbatim below.  The recursions are fuel-indexed so that they
stay structurally recursive and kernel-evaluable; each call site passes fuel
strictly larger than the quantity the CPython loop decreases, so the fuel
branch is never reached.  Callbacks are opaque payloads of type α. -/

/-- Embeds scheduler.EventTrigger. -/
inductive EventTrigger where
  | IMMEDIATELY
  | VBLANK
  | HBLANK
deriving DecidableEq, Repr

/-- Embeds scheduler.Event; callback is an opaque payload.  Event.__lt__
compares the time fields only. -/
structure Event (α : Type) where
  callback : α
  delay : Nat
  time : Nat
  cancelled : Bool
deriving Repr, DecidableEq

instance [Inhabited α] : Inhabited (Event α) := ⟨⟨default, 0, 0, false⟩⟩

/-- List indexing heap[i]; the heapq algorithms only index in range. -/
def evGet [Inhabited α] (l : List (Event α)) (i : Nat) : Event α := l.getD i default

/-- Embeds CPython heapq._siftdown(heap, startpos, pos), the bubble-up pass:
newitem = heap[pos] moves toward the root while it compares less than its
parent.  pos strictly decreases, so fuel > pos suffices. -/
def siftdownAux [Inhabited α] :
    Nat → List (Event α) → Nat → Nat → Event α → List (Event α)
  | 0, l, _, pos, newitem => l.set pos newitem
  | fuel + 1, l, startpos, pos, newitem =>
    if startpos < pos then
      if newitem.time < (evGet l ((pos - 1) / 2)).time then
        siftdownAux fuel (l.set pos (evGet l ((pos - 1) / 2))) startpos ((pos - 1) / 2) newitem
      else l.set pos newitem
    else l.set pos newitem

/-- Embeds CPython heapq.heappush: append then _siftdown(heap, 0, len-1). -/
def heappush [Inhabited α] (l : List (Event α)) (x : Event α) : List (Event α) :=
  siftdownAux (l.length + 1) (l ++ [x]) 0 l.length x

/-- The child chosen by the loop of heapq._siftup: childpos = 2 * pos + 1,
replaced by rightpos = childpos + 1 when rightpos is in range and
not heap[childpos] < heap[rightpos]. -/
def siftupChild [Inhabited α] (l : List (Event α)) (pos : Nat) : Nat :=
  if 2 * pos + 2 < l.length ∧
      ¬ (evGet l (2 * pos + 1)).time < (evGet l (2 * pos + 2)).time then
    2 * pos + 2
  else 2 * pos + 1

/-- Embeds CPython heapq._siftup(heap, pos) as called with pos = 0: the hole
at pos repeatedly receives its smaller child until it reaches a leaf,
newitem is placed there, and _siftdown bubbles it back up.  len - pos
strictly decreases, so fuel ≥ len suffices from pos = 0. -/
def siftupAux [Inhabited α] :
    Nat → List (Event α) → Nat → Event α → List (Event α)
  | 0, l, pos, newitem => siftdownAux (pos + 1) (l.set pos newitem) 0 pos newitem
  | fuel + 1, l, pos, newitem =>
    if 2 * pos + 1 < l.length then
      siftupAux fuel (l.set pos (evGet l (siftupChild l pos))) (siftupChild l pos) newitem
    else
      siftdownAux (pos + 1) (l.set pos newitem) 0 pos newitem

/-- Embeds CPython heapq.heappop: remove the last element; if the heap is
still nonempty, save heap[0], move the last element to the root and
_siftup(heap, 0); return the saved root. -/
def heappop [Inhabited α] (l : List (Event α)) : Option (Event α × List (Event α)) :=
  match l with
  | [] => none
  | _ :: _ =>
    let lastelt := evGet l (l.length - 1)
    let rest := l.dropLast
    if rest.isEmpty then some (lastelt, rest)
    else some (evGet rest 0, siftupAux (rest.length + 1) (rest.set 0 lastelt) 0 lastelt)

/-- Embeds scheduler.Scheduler state: the cycle counter, the heap list, and
the two named inactive queues of the defaultdict (IMMEDIATELY is never used
as a queue key). -/
structure SchedState (α : Type) where
  cycles : Nat
  events : List (Event α)
  inactive_vblank : List (Event α)
  inactive_hblank : List (Event α)

/-- Embeds Scheduler.schedule: an IMMEDIATELY event is stamped with
cycles + delay and pushed; otherwise the event is appended to the named
inactive queue with time still 0. -/
def sched_schedule [Inhabited α] (s : SchedState α) (cb : α) (delay : Nat)
    (trig : EventTrigger) : SchedState α :=
  match trig with
  | EventTrigger.IMMEDIATELY =>
    let ev : Event α :=
      { callback := cb, delay := delay, time := s.cycles + delay, cancelled := false }
    { s with events := heappush s.events ev }
  | EventTrigger.VBLANK =>
    { s with inactive_vblank := s.inactive_vblank ++
        [{ callback := cb, delay := delay, time := 0, cancelled := false }] }
  | EventTrigger.HBLANK =>
    { s with inactive_hblank := s.inactive_hblank ++
        [{ callback := cb, delay := delay, time := 0, cancelled := false }] }

/-- Embeds the loop of Scheduler.trigger: list.pop() removes the LAST
element of the named queue, so the queue is drained back to front; each
event is stamped with cycles + its remembered delay and pushed.  The
embedding walks the reversed queue front to back, which performs the same
pushes in the same order. -/
def sched_trigger_drain [Inhabited α] (cycles : Nat) :
    List (Event α) → List (Event α) → List (Event α)
  | [], heap => heap
  | e :: rest, heap =>
    sched_trigger_drain cycles rest (heappush heap { e with time := cycles + e.delay })

/-- Embeds Scheduler.trigger. -/
def sched_trigger [Inhabited α] (s : SchedState α) (trig : EventTrigger) : SchedState α :=
  match trig with
  | EventTrigger.IMMEDIATELY => s
  | EventTrigger.VBLANK =>
    { s with events := sched_trigger_drain s.cycles s.inactive_vblank.reverse s.events,
             inactive_vblank := [] }
  | EventTrigger.HBLANK =>
    { s with events := sched_trigger_drain s.cycles s.inactive_hblank.reverse s.events,
             inactive_hblank := [] }

/-- Embeds Scheduler.idle. -/
def sched_idle (s : SchedState α) (n : Nat) : SchedState α :=
  { s with cycles := s.cycles + n }

/-- Embeds the loop of Scheduler.process_events: while the heap is nonempty
and cycles >= heap[0].time, pop; a popped event whose cancelled flag is
clear has its callback invoked (recorded in the fired log).  Each iteration
removes one element, so fuel > length suffices. -/
def processEventsAux [Inhabited α] :
    Nat → SchedState α → List (Event α) → SchedState α × List (Event α)
  | 0, s, log => (s, log)
  | fuel + 1, s, log =>
    match s.events with
    | [] => (s, log)
    | e0 :: _ =>
      if e0.time ≤ s.cycles then
        match heappop s.events with
        | some (e, rest) =>
          processEventsAux fuel { s with events := rest }
            (log ++ if e.cancelled then [] else [e])
        | none => (s, log)
      else (s, log)

/-- Embeds Scheduler.process_events, returning the log of fired events. -/
def sched_process_events [Inhabited α] (s : SchedState α) :
    SchedState α × List (Event α) :=
  processEventsAux (s.events.length + 1) s []

/-- One external call to the scheduler, as named by the claim. -/
inductive SchedOp (α : Type) where
  | schedule (cb : α) (delay : Nat) (trig : EventTrigger)
  | trigger (trig : EventTrigger)
  | idle (n : Nat)
  | processEvents

/-- Runs a sequence of scheduler calls from a state, accumulating the log of
fired events. -/
def sched_run [Inhabited α] :
    SchedState α → List (SchedOp α) → SchedState α × List (Event α)
  | s, [] => (s, [])
  | s, op :: ops =>
    match op with
    | SchedOp.schedule cb delay trig =>
      sched_run (sched_schedule s cb delay trig) ops
    | SchedOp.trigger trig => sched_run (sched_trigger s trig) ops
    | SchedOp.idle n => sched_run (sched_idle s n) ops
    | SchedOp.processEvents =>
      let (s2, fired) := sched_process_events s
      let (s3, rest) := sched_run s2 ops
      (s3, fired ++ rest)

/-- The initial Scheduler() state. -/
def sched_init (α : Type) : SchedState α :=
  { cycles := 0, events := [], inactive_vblank := [], inactive_hblank := [] }

/-! ## Verification of the heap algorithm

The heap order is on the time field only, matching Event.__lt__.  IsHeap is
the standard array-heap invariant: every non-root entry is at least its
parent at index (i - 1) / 2. -/

/-- Parent index in the array-backed binary heap. -/
def parentIdx (c : Nat) : Nat := (c - 1) / 2

/-- The binary min-heap invariant on the time ordering of Event.__lt__. -/
def IsHeap [Inhabited α] (l : List (Event α)) : Prop :=
  ∀ c, 0 < c → c < l.length → (evGet l (parentIdx c)).time ≤ (evGet l c).time

theorem evGet_set_self [Inhabited α] (l : List (Event α)) (i : Nat) (x : Event α)
    (h : i < l.length) : evGet (l.set i x) i = x := by
  simp [evGet, List.getD_eq_getElem?_getD, List.getElem?_set_self h]

theorem evGet_set_ne [Inhabited α] (l : List (Event α)) (i j : Nat) (x : Event α)
    (h : i ≠ j) : evGet (l.set i x) j = evGet l j := by
  simp [evGet, List.getD_eq_getElem?_getD, List.getElem?_set_ne h]

theorem evGet_mem [Inhabited α] (l : List (Event α)) (i : Nat) (h : i < l.length) :
    evGet l i ∈ l := by
  rw [evGet, List.getD_eq_getElem l default h]
  exact List.getElem_mem h

theorem siftupChild_lt [Inhabited α] (l : List (Event α)) (pos : Nat)
    (h : 2 * pos + 1 < l.length) : siftupChild l pos < l.length := by
  unfold siftupChild
  split
  · next hc => exact hc.1
  · exact h

theorem siftupChild_gt [Inhabited α] (l : List (Event α)) (pos : Nat) :
    pos < siftupChild l pos := by
  unfold siftupChild
  split <;> omega

theorem siftdownAux_length [Inhabited α] (fuel : Nat) :
    ∀ (l : List (Event α)) (sp pos : Nat) (x : Event α),
      (siftdownAux fuel l sp pos x).length = l.length := by
  induction fuel with
  | zero => intro l sp pos x; simp [siftdownAux]
  | succ fuel ih =>
    intro l sp pos x
    rw [siftdownAux]
    split
    · split
      · rw [ih]; simp
      · simp
    · simp

theorem siftupAux_length [Inhabited α] (fuel : Nat) :
    ∀ (l : List (Event α)) (pos : Nat) (x : Event α),
      (siftupAux fuel l pos x).length = l.length := by
  induction fuel with
  | zero => intro l pos x; rw [siftupAux, siftdownAux_length]; simp
  | succ fuel ih =>
    intro l pos x
    rw [siftupAux]
    split
    · rw [ih]; simp
    · rw [siftdownAux_length]; simp

theorem siftdownAux_allP [Inhabited α] (P : Event α → Prop) (fuel : Nat) :
    ∀ (l : List (Event α)) (sp pos : Nat) (x : Event α),
      pos < l.length → (∀ e ∈ l, P e) → P x →
      ∀ e ∈ siftdownAux fuel l sp pos x, P e := by
  induction fuel with
  | zero =>
    intro l sp pos x hpos hl hx e he
    rw [siftdownAux] at he
    rcases List.mem_or_eq_of_mem_set he with h | h
    · exact hl e h
    · exact h ▸ hx
  | succ fuel ih =>
    intro l sp pos x hpos hl hx e he
    rw [siftdownAux] at he
    split at he
    · split at he
      · refine ih _ sp (parentIdx pos) x ?_ ?_ hx e he
        · rw [List.length_set]
          calc parentIdx pos < pos := by unfold parentIdx; omega
            _ < l.length := hpos
        · intro f hf
          rcases List.mem_or_eq_of_mem_set hf with h | h
          · exact hl f h
          · subst h
            apply hl
            apply evGet_mem
            calc parentIdx pos < pos := by unfold parentIdx; omega
              _ < l.length := hpos
      · rcases List.mem_or_eq_of_mem_set he with h | h
        · exact hl e h
        · exact h ▸ hx
    · rcases List.mem_or_eq_of_mem_set he with h | h
      · exact hl e h
      · exact h ▸ hx

theorem siftupAux_allP [Inhabited α] (P : Event α → Prop) (fuel : Nat) :
    ∀ (l : List (Event α)) (pos : Nat) (x : Event α),
      pos < l.length → (∀ e ∈ l, P e) → P x →
      ∀ e ∈ siftupAux fuel l pos x, P e := by
  induction fuel with
  | zero =>
    intro l pos x hpos hl hx e he
    rw [siftupAux] at he
    refine siftdownAux_allP P (pos + 1) _ 0 pos x ?_ ?_ hx e he
    · simpa using hpos
    · intro f hf
      rcases List.mem_or_eq_of_mem_set hf with h | h
      · exact hl f h
      · exact h ▸ hx
  | succ fuel ih =>
    intro l pos x hpos hl hx e he
    rw [siftupAux] at he
    split at he
    · next hchild =>
      refine ih _ _ x ?_ ?_ hx e he
      · rw [List.length_set]
        exact siftupChild_lt l pos hchild
      · intro f hf
        rcases List.mem_or_eq_of_mem_set hf with h | h
        · exact hl f h
        · subst h
          apply hl
          apply evGet_mem
          exact siftupChild_lt l pos hchild
    · refine siftdownAux_allP P (pos + 1) _ 0 pos x ?_ ?_ hx e he
      · simpa using hpos
      · intro f hf
        rcases List.mem_or_eq_of_mem_set hf with h | h
        · exact hl f h
        · exact h ▸ hx

theorem isHeap_root_min [Inhabited α] (l : List (Event α)) (hh : IsHeap l) :
    ∀ i, i < l.length → (evGet l 0).time ≤ (evGet l i).time := by
  intro i
  induction i using Nat.strong_induction_on with
  | _ i ih =>
    intro hi
    rcases Nat.eq_zero_or_pos i with h0 | h0
    · subst h0; exact Nat.le_refl _
    · have hp : parentIdx i < i := by unfold parentIdx; omega
      exact Nat.le_trans (ih (parentIdx i) hp (Nat.lt_trans hp hi)) (hh i h0 hi)

/-- Invariant proof for the bubble-up pass heapq._siftdown as called with
startpos = 0.  The hypotheses say: every parent/child edge of the virtual
array (l with newitem written at pos) is ordered except the edge from pos up
to its parent, and every child of pos is at least the parent of pos.  The
result is then a heap. -/
theorem siftdownAux_isHeap [Inhabited α] (fuel : Nat) :
    ∀ (l : List (Event α)) (pos : Nat) (newitem : Event α),
      pos < fuel → pos < l.length →
      (∀ c, 0 < c → c < l.length → c ≠ pos →
        (evGet (l.set pos newitem) (parentIdx c)).time ≤
          (evGet (l.set pos newitem) c).time) →
      (0 < pos → ∀ c, 0 < c → c < l.length → parentIdx c = pos →
        (evGet l (parentIdx pos)).time ≤ (evGet l c).time) →
      IsHeap (siftdownAux fuel l 0 pos newitem) := by
  induction fuel with
  | zero => intro l pos newitem hfuel; omega
  | succ fuel ih =>
    intro l pos newitem hfuel hpos hN1 hN2
    rw [siftdownAux]
    by_cases h0 : 0 < pos
    · have hpplt : (pos - 1) / 2 < pos := by omega
      have hpplen : (pos - 1) / 2 < l.length := Nat.lt_trans hpplt hpos
      have hppne : (pos - 1) / 2 ≠ pos := Nat.ne_of_lt hpplt
      rw [if_pos h0]
      by_cases hlt : newitem.time < (evGet l ((pos - 1) / 2)).time
      · rw [if_pos hlt]
        -- the values around the two written cells
        have hbpos : evGet (l.set pos newitem) pos = newitem := evGet_set_self l pos newitem hpos
        have hgen : ∀ x, x ≠ pos → evGet (l.set pos newitem) x = evGet l x := by
          intro x hx; exact evGet_set_ne l pos x newitem (Ne.symm hx)
        apply ih
        · omega
        · rw [List.length_set]; exact hpplen
        · -- N1 for the next step
          intro c hc hclen hcpp
          rw [List.length_set] at hclen
          have hval : ∀ x, x < l.length →
              evGet ((l.set pos (evGet l ((pos - 1) / 2))).set ((pos - 1) / 2) newitem) x =
                if x = (pos - 1) / 2 then newitem
                else if x = pos then evGet l ((pos - 1) / 2)
                else evGet l x := by
            intro x hx
            by_cases h1 : x = (pos - 1) / 2
            · subst h1
              rw [evGet_set_self _ _ _ (by rw [List.length_set]; exact hpplen), if_pos rfl]
            · rw [evGet_set_ne _ _ _ _ (Ne.symm h1), if_neg h1]
              by_cases h2 : x = pos
              · subst h2
                rw [evGet_set_self _ _ _ hpos, if_pos rfl]
              · rw [evGet_set_ne _ _ _ _ (Ne.symm h2), if_neg h2]
          have hparlt : parentIdx c < c := by unfold parentIdx; omega
          have hparlen : parentIdx c < l.length := Nat.lt_trans hparlt hclen
          rw [hval c hclen, hval (parentIdx c) hparlen]
          by_cases hcpos : c = pos
          · -- edge from the old hole up to its parent: newitem <= parent
            subst hcpos
            have : parentIdx c = (c - 1) / 2 := rfl
            rw [if_neg hcpp, if_pos rfl, this, if_pos rfl]
            exact Nat.le_of_lt hlt
          · have hcppar : parentIdx c ≠ pos ∨ parentIdx c = pos := by tauto
            rw [if_neg hcpp, if_neg hcpos]
            by_cases hp1 : parentIdx c = (pos - 1) / 2
            · -- a sibling of the old hole: newitem <= l[c] via parent value
              rw [if_pos hp1]
              have h1 := hN1 c hc hclen hcpos
              rw [hgen c hcpos, hgen (parentIdx c) (by rw [hp1]; exact hppne)] at h1
              rw [hp1] at h1
              exact Nat.le_trans (Nat.le_of_lt hlt) h1
            · rw [if_neg hp1]
              by_cases hp2 : parentIdx c = pos
              · -- a child of the old hole: grandparent bound
                rw [if_pos hp2]
                exact hN2 h0 c hc hclen hp2
              · -- an untouched edge
                rw [if_neg hp2]
                have h1 := hN1 c hc hclen hcpos
                rw [hgen c hcpos, hgen (parentIdx c) hp2] at h1
                exact h1
        · -- N2 for the next step
          intro hpp0 c hc hclen hcp
          rw [List.length_set] at hclen
          have hglt : parentIdx ((pos - 1) / 2) < (pos - 1) / 2 := by unfold parentIdx; omega
          have hglen : parentIdx ((pos - 1) / 2) < l.length := Nat.lt_trans hglt hpplen
          have hgne : parentIdx ((pos - 1) / 2) ≠ pos := by omega
          -- l[parent of pp] <= l[pp]
          have hstep : (evGet l (parentIdx ((pos - 1) / 2))).time ≤
              (evGet l ((pos - 1) / 2)).time := by
            have h1 := hN1 ((pos - 1) / 2) hpp0 hpplen hppne
            rw [hgen _ hppne, hgen _ hgne] at h1
            exact h1
          rw [evGet_set_ne _ _ _ _ (Ne.symm hgne)]
          by_cases hcpos : c = pos
          · subst hcpos
            rw [evGet_set_self _ _ _ hpos]
            exact hstep
          · rw [evGet_set_ne _ _ _ _ (Ne.symm hcpos)]
            have h1 := hN1 c hc hclen hcpos
            rw [hgen c hcpos, hgen (parentIdx c) (by rw [hcp]; exact hppne)] at h1
            rw [hcp] at h1
            exact Nat.le_trans hstep h1
      · -- newitem is not below its parent: stop and place it
        rw [if_neg hlt]
        intro c hc hclen
        rw [List.length_set] at hclen
        by_cases hcpos : c = pos
        · subst hcpos
          have hne2 : c ≠ parentIdx c := by unfold parentIdx; omega
          rw [evGet_set_self _ _ _ hpos, evGet_set_ne _ _ _ _ hne2]
          have hpc : parentIdx c = (c - 1) / 2 := rfl
          rw [hpc]
          omega
        · exact hN1 c hc hclen hcpos
    · -- pos = 0: place newitem at the root
      rw [if_neg h0]
      intro c hc hclen
      rw [List.length_set] at hclen
      have hc0 : c ≠ pos := by omega
      exact hN1 c hc hclen hc0

theorem siftupChild_cases [Inhabited α] (l : List (Event α)) (pos : Nat) :
    siftupChild l pos = 2 * pos + 1 ∨ siftupChild l pos = 2 * pos + 2 := by
  unfold siftupChild
  split
  · right; rfl
  · left; rfl

theorem siftupChild_parent [Inhabited α] (l : List (Event α)) (pos : Nat) :
    parentIdx (siftupChild l pos) = pos := by
  rcases siftupChild_cases l pos with h | h <;> rw [h] <;> unfold parentIdx <;> omega

/-- The chosen child is minimal among the in-range children of pos. -/
theorem siftupChild_min [Inhabited α] (l : List (Event α)) (pos : Nat) (c : Nat)
    (hpc : parentIdx c = pos) (h0 : 0 < c) (hclen : c < l.length) :
    (evGet l (siftupChild l pos)).time ≤ (evGet l c).time := by
  have hc12 : c = 2 * pos + 1 ∨ c = 2 * pos + 2 := by unfold parentIdx at hpc; omega
  unfold siftupChild
  split
  · next hcond =>
    rcases hc12 with h | h
    · subst h; omega
    · subst h; exact Nat.le_refl _
  · next hcond =>
    rcases hc12 with h | h
    · subst h; exact Nat.le_refl _
    · subst h
      rw [Classical.not_and_iff_or_not_not] at hcond
      rcases hcond with h1 | h1
      · omega
      · rw [Classical.not_not] at h1
        omega

/-- Invariant proof for the hole-descent pass heapq._siftup as called with
startpos = 0.  The hypotheses say: every edge not incident to the hole at
pos is ordered, and every child of the hole is at least the hole's parent.
The result after the final _siftdown is a heap. -/
theorem siftupAux_isHeap [Inhabited α] (fuel : Nat) :
    ∀ (l : List (Event α)) (pos : Nat) (newitem : Event α),
      l.length ≤ fuel + pos →
      pos < l.length →
      (∀ c, 0 < c → c < l.length → c ≠ pos → parentIdx c ≠ pos →
        (evGet l (parentIdx c)).time ≤ (evGet l c).time) →
      (0 < pos → ∀ c, 0 < c → c < l.length → parentIdx c = pos →
        (evGet l (parentIdx pos)).time ≤ (evGet l c).time) →
      IsHeap (siftupAux fuel l pos newitem) := by
  induction fuel with
  | zero => intro l pos newitem hfl hpos; omega
  | succ fuel ih =>
    intro l pos newitem hfl hpos hD1 hD2
    rw [siftupAux]
    by_cases hchild : 2 * pos + 1 < l.length
    · rw [if_pos hchild]
      have hklt : siftupChild l pos < l.length := siftupChild_lt l pos hchild
      have hkgt : pos < siftupChild l pos := siftupChild_gt l pos
      have hkpar : parentIdx (siftupChild l pos) = pos := siftupChild_parent l pos
      have hval : ∀ x, evGet (l.set pos (evGet l (siftupChild l pos))) x =
          if x = pos then evGet l (siftupChild l pos) else evGet l x := by
        intro x
        by_cases hx : x = pos
        · subst hx; rw [evGet_set_self _ _ _ hpos, if_pos rfl]
        · rw [evGet_set_ne _ _ _ _ (Ne.symm hx), if_neg hx]
      apply ih
      · rw [List.length_set]; omega
      · rw [List.length_set]; exact hklt
      · -- D1 for the next step
        intro c hc hclen hck hpck
        rw [List.length_set] at hclen
        rw [hval c, hval (parentIdx c)]
        by_cases hcpos : c = pos
        · -- edge from the old hole up: grandparent bound at the chosen child
          subst hcpos
          have hppne : parentIdx c ≠ c := by unfold parentIdx; omega
          rw [if_neg hppne, if_pos rfl]
          have h0c : 0 < c := hc
          exact hD2 h0c (siftupChild l c) (by omega) hklt hkpar
        · by_cases hpcpos : parentIdx c = pos
          · -- a sibling of the chosen child
            rw [if_pos hpcpos, if_neg hcpos]
            exact siftupChild_min l pos c hpcpos hc hclen
          · -- an untouched edge
            rw [if_neg hpcpos, if_neg hcpos]
            exact hD1 c hc hclen hcpos hpcpos
      · -- D2 for the next step
        intro hk0 c hc hclen hpck
        rw [List.length_set] at hclen
        rw [hval c, hval (parentIdx (siftupChild l pos)), hkpar, if_pos rfl]
        have hcgtk : siftupChild l pos < c := by
          unfold parentIdx at hpck; omega
        have hcpos : c ≠ pos := by omega
        rw [if_neg hcpos]
        have hpcpos : parentIdx c ≠ pos := by rw [hpck]; omega
        have h := hD1 c hc hclen hcpos hpcpos
        rw [hpck] at h
        exact h
    · rw [if_neg hchild]
      apply siftdownAux_isHeap
      · omega
      · rw [List.length_set]; exact hpos
      · intro c hc hclen hcpos
        rw [List.length_set] at hclen
        rw [List.set_set]
        by_cases hpc : parentIdx c = pos
        · exfalso
          have : 2 * pos + 1 ≤ c := by unfold parentIdx at hpc; omega
          omega
        · rw [evGet_set_ne _ _ _ _ (Ne.symm hcpos), evGet_set_ne _ _ _ _ (Ne.symm hpc)]
          exact hD1 c hc hclen hcpos hpc
      · intro hpos0 c hc hclen hpc
        exfalso
        rw [List.length_set] at hclen
        have : 2 * pos + 1 ≤ c := by unfold parentIdx at hpc; omega
        omega

theorem evGet_append_left [Inhabited α] (l l2 : List (Event α)) (i : Nat)
    (h : i < l.length) : evGet (l ++ l2) i = evGet l i := by
  rw [evGet, evGet, List.getD_eq_getElem?_getD, List.getD_eq_getElem?_getD,
    List.getElem?_append, if_pos h]

theorem heappush_isHeap [Inhabited α] (l : List (Event α)) (x : Event α)
    (hh : IsHeap l) : IsHeap (heappush l x) := by
  rw [heappush]
  have hval : ∀ y, y < l.length → evGet ((l ++ [x]).set l.length x) y = evGet l y := by
    intro y hy
    rw [evGet_set_ne _ _ _ _ (by omega), evGet_append_left _ _ _ hy]
  apply siftdownAux_isHeap
  · omega
  · simp
  · intro c hc hclen hcpos
    rw [List.length_append, List.length_singleton] at hclen
    have hclt : c < l.length := by omega
    have hplt : parentIdx c < l.length := by
      have : parentIdx c < c := by unfold parentIdx; omega
      omega
    rw [hval c hclt, hval (parentIdx c) hplt]
    exact hh c hc hclt
  · intro h0 c hc hclen hpc
    exfalso
    rw [List.length_append, List.length_singleton] at hclen
    have : 2 * l.length + 1 ≤ c := by unfold parentIdx at hpc; omega
    omega

theorem isHeap_root_min_mem [Inhabited α] (l : List (Event α)) (hh : IsHeap l) :
    ∀ x ∈ l, (evGet l 0).time ≤ x.time := by
  intro x hx
  rcases List.mem_iff_getElem.mp hx with ⟨i, hi, hget⟩
  have h1 := isHeap_root_min l hh i hi
  have h2 : evGet l i = x := by rw [evGet, List.getD_eq_getElem l default hi, hget]
  rw [h2] at h1
  exact h1

theorem evGet_dropLast [Inhabited α] (l : List (Event α)) (i : Nat)
    (h : i < l.length - 1) : evGet l.dropLast i = evGet l i := by
  rw [evGet, evGet, List.getD_eq_getElem?_getD, List.getD_eq_getElem?_getD,
    List.getElem?_dropLast]
  rw [if_pos h]

/-- Specification of heappop on a heap: it returns the root, the remaining
list is again a heap, it is one element shorter, and every remaining element
is at least the popped one. -/
theorem heappop_spec [Inhabited α] (l : List (Event α)) (hh : IsHeap l)
    (e : Event α) (rest : List (Event α)) (hpop : heappop l = some (e, rest)) :
    e = evGet l 0 ∧ IsHeap rest ∧ rest.length = l.length - 1 ∧
      ∀ x ∈ rest, e.time ≤ x.time := by
  match l, hpop with
  | a :: as, hpop =>
    rw [heappop] at hpop
    by_cases hemp : (a :: as).dropLast.isEmpty
    · rw [if_pos hemp] at hpop
      have has : as = [] := by
        cases as with
        | nil => rfl
        | cons b bs =>
          exfalso
          rw [List.isEmpty_iff] at hemp
          have : (a :: b :: bs).dropLast.length = bs.length + 1 := by
            rw [List.length_dropLast]; simp
          rw [hemp] at this
          simp at this
      subst has
      cases hpop
      refine ⟨rfl, ?_, by simp, by simp⟩
      intro c hc hclen
      simp at hclen
    · rw [if_neg hemp] at hpop
      have hlen2 : 2 ≤ (a :: as).length := by
        cases as with
        | nil => exfalso; exact hemp (by simp)
        | cons b bs => simp only [List.length_cons]; omega
      have hdlen : (a :: as).dropLast.length = (a :: as).length - 1 := by
        rw [List.length_dropLast]
      have hdpos : 0 < (a :: as).dropLast.length := by
        rw [hdlen]; omega
      have he : e = evGet (a :: as) 0 := by
        have h0 : evGet (a :: as).dropLast 0 = evGet (a :: as) 0 :=
          evGet_dropLast (a :: as) 0 (by omega)
        cases hpop
        exact h0
      have hlast : evGet (a :: as) ((a :: as).length - 1) ∈ (a :: as) :=
        evGet_mem _ _ (by omega)
      have hrest : rest = siftupAux ((a :: as).dropLast.length + 1)
          ((a :: as).dropLast.set 0 (evGet (a :: as) ((a :: as).length - 1))) 0
          (evGet (a :: as) ((a :: as).length - 1)) := by
        cases hpop
        rfl
      have hD1 : ∀ c, 0 < c → c < ((a :: as).dropLast.set 0
            (evGet (a :: as) ((a :: as).length - 1))).length → c ≠ 0 → parentIdx c ≠ 0 →
          (evGet ((a :: as).dropLast.set 0 (evGet (a :: as) ((a :: as).length - 1)))
            (parentIdx c)).time ≤
          (evGet ((a :: as).dropLast.set 0 (evGet (a :: as) ((a :: as).length - 1)))
            c).time := by
        intro c hc hclen hc0 hpc0
        rw [List.length_set, hdlen] at hclen
        have hplt : parentIdx c < c := by unfold parentIdx; omega
        rw [evGet_set_ne _ _ _ _ (Ne.symm hc0), evGet_set_ne _ _ _ _ (Ne.symm hpc0),
          evGet_dropLast _ _ hclen, evGet_dropLast _ _ (by omega)]
        exact hh c hc (by omega)
      refine ⟨he, ?_, ?_, ?_⟩
      · rw [hrest]
        apply siftupAux_isHeap
        · rw [List.length_set]; omega
        · rw [List.length_set]; exact hdpos
        · exact hD1
        · intro h00; exact absurd h00 (by omega)
      · rw [hrest, siftupAux_length, List.length_set, hdlen]
      · intro x hx
        rw [hrest] at hx
        refine siftupAux_allP (fun y => e.time ≤ y.time)
          ((a :: as).dropLast.length + 1) _ 0 _ (by rw [List.length_set]; exact hdpos)
          ?_ ?_ x hx
        · intro f hf
          rcases List.mem_or_eq_of_mem_set hf with h | h
          · have : f ∈ (a :: as) := List.dropLast_subset _ h
            rw [he]
            exact isHeap_root_min_mem _ hh f this
          · subst h
            rw [he]
            exact isHeap_root_min_mem _ hh _ hlast
        · rw [he]
          exact isHeap_root_min_mem _ hh _ hlast

theorem heappush_allP [Inhabited α] (P : Event α → Prop) (l : List (Event α))
    (x : Event α) (hl : ∀ e ∈ l, P e) (hx : P x) : ∀ e ∈ heappush l x, P e := by
  rw [heappush]
  refine siftdownAux_allP P (l.length + 1) (l ++ [x]) 0 l.length x (by simp) ?_ hx
  intro e he
  rcases List.mem_append.mp he with h | h
  · exact hl e h
  · rw [List.mem_singleton] at h
    exact h ▸ hx

theorem sched_trigger_drain_isHeap [Inhabited α] (cycles : Nat) :
    ∀ (q heap : List (Event α)), IsHeap heap →
      IsHeap (sched_trigger_drain cycles q heap) := by
  intro q
  induction q with
  | nil => intro heap hh; exact hh
  | cons e rest ih =>
    intro heap hh
    exact ih _ (heappush_isHeap _ _ hh)

theorem sched_trigger_drain_allP [Inhabited α] (P : Event α → Prop) (cycles : Nat) :
    ∀ (q heap : List (Event α)), (∀ x ∈ heap, P x) →
      (∀ e ∈ q, P { e with time := cycles + e.delay }) →
      ∀ x ∈ sched_trigger_drain cycles q heap, P x := by
  intro q
  induction q with
  | nil => intro heap hh _ x hx; exact hh x hx
  | cons e rest ih =>
    intro heap hh hq x hx
    refine ih _ (heappush_allP P heap _ hh (hq e (by simp))) ?_ x hx
    intro f hf
    exact hq f (by simp [hf])

/-- The invariant tying a scheduler state to the log of already-fired
events: the heap is a heap, every fired time is below every queued time and
below the clock, and the log is sorted by fire time. -/
structure SchedGood [Inhabited α] (s : SchedState α) (log : List (Event α)) : Prop where
  heap : IsHeap s.events
  log_le_heap : ∀ f ∈ log, ∀ e ∈ s.events, f.time ≤ e.time
  log_sorted : List.Chain' (fun a b : Event α => a.time ≤ b.time) log
  log_le_now : ∀ f ∈ log, f.time ≤ s.cycles

theorem heappop_cons [Inhabited α] (a : Event α) (as : List (Event α)) :
    ∃ p, heappop (a :: as) = some p := by
  rw [heappop]
  split
  · exact ⟨_, rfl⟩
  · exact ⟨_, rfl⟩

theorem processEventsAux_good [Inhabited α] (fuel : Nat) :
    ∀ (s : SchedState α) (log : List (Event α)), SchedGood s log →
      SchedGood (processEventsAux fuel s log).1 (processEventsAux fuel s log).2 := by
  induction fuel with
  | zero => intro s log hg; exact hg
  | succ fuel ih =>
    intro s log hg
    rw [processEventsAux]
    split
    · exact hg
    · next e0 tl hev =>
      by_cases htime : e0.time ≤ s.cycles
      · rw [if_pos htime]
        obtain ⟨⟨e, rest⟩, hpop⟩ := heappop_cons e0 tl
        have hheap : IsHeap (e0 :: tl) := hev ▸ hg.heap
        have hspec := heappop_spec (e0 :: tl) hheap e rest hpop
        obtain ⟨he0, hrest_heap, hrest_len, hrest_min⟩ := hspec
        have he0v : e = e0 := by rw [he0]; rfl
        have hemem : e ∈ s.events := by rw [hev, he0v]; simp
        have hloge : ∀ f ∈ log, f.time ≤ e.time := fun f hf => hg.log_le_heap f hf e hemem
        rw [hev, hpop]
        apply ih
        constructor
        · exact hrest_heap
        · intro f hf x hx
          rcases List.mem_append.mp hf with h | h
          · exact Nat.le_trans (hloge f h) (hrest_min x hx)
          · have : f = e := by
              split at h
              · simp at h
              · rw [List.mem_singleton] at h; exact h
            exact this ▸ hrest_min x hx
        · refine List.chain'_append.mpr ⟨hg.log_sorted, ?_, ?_⟩
          · split <;> simp
          · intro x hx y hy
            have hxlog : x ∈ log := List.mem_of_mem_getLast? hx
            have hye : y = e := by
              split at hy
              · simp at hy
              · simp at hy; exact hy.symm
            exact hye ▸ hloge x hxlog
        · intro f hf
          rcases List.mem_append.mp hf with h | h
          · exact hg.log_le_now f h
          · have : f = e := by
              split at h
              · simp at h
              · rw [List.mem_singleton] at h; exact h
            rw [this, he0v]
            exact htime
      · rw [if_neg htime]
        exact hg

theorem processEventsAux_log_append [Inhabited α] (fuel : Nat) :
    ∀ (s : SchedState α) (log : List (Event α)),
      processEventsAux fuel s log =
        ((processEventsAux fuel s []).1, log ++ (processEventsAux fuel s []).2) := by
  induction fuel with
  | zero => intro s log; simp [processEventsAux]
  | succ fuel ih =>
    intro s log
    rw [processEventsAux, processEventsAux]
    split
    · simp
    · next e0 tl hev =>
      by_cases htime : e0.time ≤ s.cycles
      · rw [if_pos htime, if_pos htime]
        obtain ⟨⟨e, rest⟩, hpop⟩ := heappop_cons e0 tl
        rw [hev, hpop]
        dsimp only
        rw [ih _ (log ++ if e.cancelled then [] else [e]),
          ih _ ([] ++ if e.cancelled then [] else [e])]
        simp
      · rw [if_neg htime, if_neg htime]
        simp

theorem sched_run_good [Inhabited α] (ops : List (SchedOp α)) :
    ∀ (s : SchedState α) (log : List (Event α)), SchedGood s log →
      SchedGood (sched_run s ops).1 (log ++ (sched_run s ops).2) := by
  induction ops with
  | nil => intro s log hg; simpa [sched_run] using hg
  | cons op rest ih =>
    intro s log hg
    match op with
    | SchedOp.schedule cb delay trig =>
      rw [sched_run]
      apply ih
      match trig with
      | EventTrigger.IMMEDIATELY =>
        constructor
        · exact heappush_isHeap _ _ hg.heap
        · intro f hf x hx
          refine heappush_allP (fun y => f.time ≤ y.time) _ _ ?_ ?_ x hx
          · intro y hy; exact hg.log_le_heap f hf y hy
          · exact Nat.le_trans (hg.log_le_now f hf)
              (show s.cycles ≤ s.cycles + delay by omega)
        · exact hg.log_sorted
        · exact hg.log_le_now
      | EventTrigger.VBLANK =>
        exact ⟨hg.heap, hg.log_le_heap, hg.log_sorted, hg.log_le_now⟩
      | EventTrigger.HBLANK =>
        exact ⟨hg.heap, hg.log_le_heap, hg.log_sorted, hg.log_le_now⟩
    | SchedOp.trigger trig =>
      rw [sched_run]
      apply ih
      match trig with
      | EventTrigger.IMMEDIATELY =>
        exact ⟨hg.heap, hg.log_le_heap, hg.log_sorted, hg.log_le_now⟩
      | EventTrigger.VBLANK =>
        constructor
        · exact sched_trigger_drain_isHeap _ _ _ hg.heap
        · intro f hf x hx
          refine sched_trigger_drain_allP (fun y => f.time ≤ y.time) _ _ _ ?_ ?_ x hx
          · intro y hy; exact hg.log_le_heap f hf y hy
          · intro y hy
            exact Nat.le_trans (hg.log_le_now f hf)
              (show s.cycles ≤ s.cycles + y.delay by omega)
        · exact hg.log_sorted
        · exact hg.log_le_now
      | EventTrigger.HBLANK =>
        constructor
        · exact sched_trigger_drain_isHeap _ _ _ hg.heap
        · intro f hf x hx
          refine sched_trigger_drain_allP (fun y => f.time ≤ y.time) _ _ _ ?_ ?_ x hx
          · intro y hy; exact hg.log_le_heap f hf y hy
          · intro y hy
            exact Nat.le_trans (hg.log_le_now f hf)
              (show s.cycles ≤ s.cycles + y.delay by omega)
        · exact hg.log_sorted
        · exact hg.log_le_now
    | SchedOp.idle n =>
      rw [sched_run]
      apply ih
      exact ⟨hg.heap, hg.log_le_heap, hg.log_sorted,
        fun f hf => Nat.le_trans (hg.log_le_now f hf) (by simp [sched_idle])⟩
    | SchedOp.processEvents =>
      rw [sched_run]
      have hpe := processEventsAux_good (s.events.length + 1) s log hg
      rw [processEventsAux_log_append] at hpe
      rw [sched_process_events]
      have := ih (processEventsAux (s.events.length + 1) s []).1
        (log ++ (processEventsAux (s.events.length + 1) s []).2) hpe
      simpa [List.append_assoc] using this

/-- Claim C2 (amended): for every sequence of schedule, trigger, idle and
process_events calls, the fired callbacks are invoked in non-decreasing
fire-time order.  The FIFO tie-break part of the original claim is false:
heapq is not a stable priority queue when Event.__lt__ only compares the
time field (see the counterexample). -/
theorem sched_run_fires_sorted (ops : List (SchedOp Nat)) :
    List.Chain' (fun a b : Event Nat => a.time ≤ b.time)
      (sched_run (sched_init Nat) ops).2 := by
  have hg : SchedGood (sched_init Nat) [] := by
    constructor
    · intro c hc hclen; simp [sched_init] at hclen
    · intro f hf; simp at hf
    · simp
    · intro f hf; simp at hf
  have := (sched_run_good ops (sched_init Nat) [] hg).log_sorted
  simpa using this

/-- The C2 counterexample program: four events scheduled with equal fire
time 0 (IMMEDIATELY, delay 0) in callback order 0, 1, 2, 3, followed by one
process_events call. -/
def fifoProgram : List (SchedOp Nat) :=
  [SchedOp.schedule 0 0 EventTrigger.IMMEDIATELY,
   SchedOp.schedule 1 0 EventTrigger.IMMEDIATELY,
   SchedOp.schedule 2 0 EventTrigger.IMMEDIATELY,
   SchedOp.schedule 3 0 EventTrigger.IMMEDIATELY,
   SchedOp.processEvents]

/-- The fired-event log of the C2 counterexample program. -/
def fifoFired : List (Event Nat) := (sched_run (sched_init Nat) fifoProgram).2

/-- Counterexample to the FIFO tie-break part of claim C2: all four events
share fire time 0, the event with callback 1 is scheduled before the event
with callback 2, yet the callbacks fire in order 0, 2, 1, 3 — callback 2
runs before callback 1.  heapq is not a stable priority queue when
Event.__lt__ compares only the time field. -/
theorem sched_fifo_tie_break_counterexample :
    fifoFired.map Event.callback = [0, 2, 1, 3] ∧
    fifoFired.map Event.time = [0, 0, 0, 0] := by
  constructor <;> decide

/-! ## memory/dma.py: DMAChannel control writes and activation

The model covers a single channel coupled to the scheduler, which is what
claim C1 is about.  Scheduled events carry a Nat identity as payload; the
channel's _event field stores the identity of the Python Event object it
holds a reference to, and mutating that object's cancelled flag through the
reference becomes a map over the scheduler state replacing the event with
that identity.  memory/constants.py is not part of the sources; the two
sound-FIFO register addresses its IOAddress class provides are modelled
from the spec (the standard GBA FIFO_A/FIFO_B data registers). -/

/-- Modelled from the spec: memory/constants.py is missing from the sources;
IOAddress.REG_FIFO_A is the sound FIFO-A data register address named in
spec section 4.3. -/
def REG_FIFO_A : Nat := 0x040000A0

/-- Modelled from the spec: memory/constants.py is missing from the sources;
IOAddress.REG_FIFO_B is the sound FIFO-B data register address named in
spec section 4.3. -/
def REG_FIFO_B : Nat := 0x040000A4

/-- Embeds DMAChannel.COUNT_MASK indexed by channel id (0..3). -/
def dma_count_mask (channel_id : Nat) : Nat :=
  if channel_id = 3 then 0xFFFF else 0x3FFF

/-- Embeds DMAChannel.SRC_MASK indexed by channel id (0..3). -/
def dma_src_mask (channel_id : Nat) : Nat :=
  if channel_id = 0 then 0x07FFFFFF else 0x0FFFFFFF

/-- Embeds DMAChannel.DST_MASK indexed by channel id (0..3). -/
def dma_dst_mask (channel_id : Nat) : Nat :=
  if channel_id = 3 then 0x0FFFFFFF else 0x07FFFFFF

/-- Embeds DMAControlRegister property getters (bit fields of reg). -/
def dma_ctrl_dst_adjustment (reg : Nat) : Nat := get_bits reg 5 6

def dma_ctrl_src_adjustment (reg : Nat) : Nat := get_bits reg 7 8

def dma_ctrl_repeat (reg : Nat) : Nat := get_bit reg 9

def dma_ctrl_size (reg : Nat) : Nat := get_bit reg 10

def dma_ctrl_start_timing (reg : Nat) : Nat := get_bits reg 12 13

def dma_ctrl_irq_when_done (reg : Nat) : Nat := get_bit reg 14

def dma_ctrl_enable (reg : Nat) : Nat := get_bit reg 15

/-- Embeds the DMAChannel fields that claim C1 involves. -/
structure DMAChannelState where
  channel_id : Nat
  fifo : Bool
  pending : Bool
  control_reg : Nat
  count : Nat
  src : Nat
  dst : Nat
  internal_src : Nat
  internal_dst : Nat
  internal_count : Nat
  event : Option Nat

/-- A single DMA channel coupled to the scheduler.  next_id numbers the
Event objects the scheduler hands out. -/
structure DMASys where
  sched : SchedState Nat
  next_id : Nat
  chan : DMAChannelState

/-- Replaces the cancelled flag of the event object with the given identity
wherever the scheduler still holds it (the value-level rendering of mutating
a shared Python Event through the stored reference). -/
def sched_set_cancelled (s : SchedState Nat) (id : Nat) (b : Bool) : SchedState Nat :=
  { s with
    events := s.events.map fun e => if e.callback = id then { e with cancelled := b } else e,
    inactive_vblank := s.inactive_vblank.map fun e =>
      if e.callback = id then { e with cancelled := b } else e,
    inactive_hblank := s.inactive_hblank.map fun e =>
      if e.callback = id then { e with cancelled := b } else e }

/-- Embeds DMAChannel.activate: pending is set only if enable is still on. -/
def dma_activate (c : DMAChannelState) : DMAChannelState :=
  if dma_ctrl_enable c.control_reg = 1 then { c with pending := true } else c

/-- Embeds the control_reg setter of DMAChannel.  On a rising enable edge it
detects FIFO DMA, latches the internal copies, and schedules the activate
callback per start timing (TRANSFER_DELAY = 2); for SPECIAL timing none of
the branches runs and _event keeps its previous value.  On a falling edge
the source executes self._event.cancelled = False (not True) before
dropping the reference, then clears pending. -/
def dma_write_control (sys : DMASys) (value : Nat) : DMASys :=
  let old_enable := dma_ctrl_enable sys.chan.control_reg
  let chan0 := { sys.chan with control_reg := value }
  if old_enable = 0 ∧ dma_ctrl_enable value = 1 then
    let fifo := dma_ctrl_start_timing value = 3 ∧
      (sys.chan.channel_id = 1 ∨ sys.chan.channel_id = 2) ∧
      (sys.chan.dst = REG_FIFO_A ∨ sys.chan.dst = REG_FIFO_B)
    let internal_count0 := sys.chan.count
    let internal_count :=
      if internal_count0 = 0 then dma_count_mask sys.chan.channel_id + 1
      else internal_count0
    let chan1 := { chan0 with
      fifo := decide fifo
      internal_src := sys.chan.src
      internal_dst := sys.chan.dst
      internal_count := internal_count }
    if dma_ctrl_start_timing value = 0 then
      { sched := sched_schedule sys.sched sys.next_id 2 EventTrigger.IMMEDIATELY,
        next_id := sys.next_id + 1,
        chan := { chan1 with event := some sys.next_id } }
    else if dma_ctrl_start_timing value = 1 then
      { sched := sched_schedule sys.sched sys.next_id 2 EventTrigger.VBLANK,
        next_id := sys.next_id + 1,
        chan := { chan1 with event := some sys.next_id } }
    else if dma_ctrl_start_timing value = 2 then
      { sched := sched_schedule sys.sched sys.next_id 2 EventTrigger.HBLANK,
        next_id := sys.next_id + 1,
        chan := { chan1 with event := some sys.next_id } }
    else
      { sys with chan := chan1 }
  else if old_enable = 1 ∧ dma_ctrl_enable value = 0 then
    match sys.chan.event with
    | some id =>
      { sys with
        sched := sched_set_cancelled sys.sched id false,
        chan := { chan0 with event := none, pending := false } }
    | none => { sys with chan := { chan0 with pending := false } }
  else
    { sys with chan := chan0 }

/-- Scheduler.process_events for the DMA system: a popped event whose
cancelled flag is clear invokes the channel's activate callback.  The log
records the identities of the callbacks that were invoked. -/
def dmaProcessAux : Nat → DMASys → List Nat → DMASys × List Nat
  | 0, sys, log => (sys, log)
  | fuel + 1, sys, log =>
    match sys.sched.events with
    | [] => (sys, log)
    | e0 :: _ =>
      if e0.time ≤ sys.sched.cycles then
        match heappop sys.sched.events with
        | some (e, rest) =>
          let sys1 := { sys with sched := { sys.sched with events := rest } }
          if e.cancelled then dmaProcessAux fuel sys1 log
          else
            dmaProcessAux fuel { sys1 with chan := dma_activate sys1.chan }
              (log ++ [e.callback])
        | none => (sys, log)
      else (sys, log)

/-- Runs Scheduler.process_events on the DMA system. -/
def dmaProcess (sys : DMASys) : DMASys × List Nat :=
  dmaProcessAux (sys.sched.events.length + 1) sys []

/-- Advances the scheduler clock of the DMA system. -/
def dmaIdle (sys : DMASys) (n : Nat) : DMASys :=
  { sys with sched := sched_idle sys.sched n }

/-- A freshly constructed channel (DMAChannel.__init__) on a fresh
scheduler. -/
def dmaInit (channel_id : Nat) : DMASys :=
  { sched := sched_init Nat,
    next_id := 0,
    chan := { channel_id := channel_id, fifo := false, pending := false,
              control_reg := 0, count := 0, src := 0, dst := 0,
              internal_src := 0, internal_dst := 0, internal_count := 0,
              event := none } }

/-- The C1 failing scenario: enable channel 0 with IMMEDIATE start timing,
then write the control register with the enable bit clear before the
scheduled activate event is due, then let two cycles elapse and process
events. -/
def dmaDisableScenario : DMASys × List Nat :=
  dmaProcess (dmaIdle (dma_write_control (dma_write_control (dmaInit 0) 0x8000) 0) 2)

/-- Claim C1 (code bug): disabling a DMA channel while its activate event is
still pending executes self._event.cancelled = False instead of True, so
the event is not cancelled and the activate callback still fires when the
event comes due; only the pending flag is cleared as the claim states.  The
middle conjunct evaluates the scheduler state right after the falling-edge
write: the stored event still has cancelled = false.  The first conjunct
shows the activate callback (event identity 0) firing afterwards. -/
theorem dma_disable_cancelled_flag_bug :
    dmaDisableScenario.2 = [0] ∧
    ((dma_write_control (dma_write_control (dmaInit 0) 0x8000) 0).sched.events.map
      Event.cancelled = [false]) ∧
    (dma_write_control (dma_write_control (dmaInit 0) 0x8000) 0).chan.pending = false ∧
    (dma_write_control (dmaInit 0) 0x8000).chan.event = some 0 := by
  refine ⟨?_, ?_, ?_, ?_⟩ <;> decide

/-! ## interrupt_controller.py: staged IE/IF/IME writes

The InterruptController schedules its own callbacks on the scheduler.  The
payload type ICAction names which bound method a scheduled event carries:
_write_interrupt_registers (commit) or functools.partial(_update_irq_line,
v).  Python's `interrupt_available and self._interrupt_master_enable`
evaluates to 0 when interrupt_available is 0 and to the ime value (0 or 1,
since ime is masked with 0b1 on write) otherwise, and comparing that int
against the bool irq_line compares by value, so the new line is the Bool
(ia ≠ 0 ∧ ime ≠ 0). -/

/-- The callbacks an InterruptController event can carry. -/
inductive ICAction where
  | commit
  | lineUpdate (v : Bool)
deriving DecidableEq, Repr, Inhabited

/-- Embeds the InterruptController fields. -/
structure ICState where
  interrupt_enable : Nat
  interrupt_flags : Nat
  interrupt_master_enable : Nat
  pending_interrupt_enable : Nat
  pending_interrupt_flags : Nat
  pending_interrupt_master_enable : Nat
  irq_line : Bool
  power_down_mode : Nat

/-- The controller together with the scheduler it schedules on. -/
structure ICSys where
  sched : SchedState ICAction
  ic : ICState

/-- Embeds _schedule_write_interrupt_registers:
WRITE_INTERRUPT_REGISTERS_DELAY = 1, default trigger IMMEDIATELY. -/
def ic_schedule_write (s : SchedState ICAction) : SchedState ICAction :=
  sched_schedule s ICAction.commit 1 EventTrigger.IMMEDIATELY

/-- Embeds the interrupt_enable setter: pending := value & Interrupt.ALL,
then schedule the commit. -/
def ic_write_interrupt_enable (sys : ICSys) (value : Nat) : ICSys :=
  { sched := ic_schedule_write sys.sched,
    ic := { sys.ic with pending_interrupt_enable := pyAnd value 0x3FFF } }

/-- Embeds the interrupt_flags setter: pending &= ~value (acknowledge),
then schedule the commit. -/
def ic_write_interrupt_flags (sys : ICSys) (value : Nat) : ICSys :=
  { sched := ic_schedule_write sys.sched,
    ic := { sys.ic with
      pending_interrupt_flags := pyLdiff sys.ic.pending_interrupt_flags value } }

/-- Embeds the interrupt_master_enable setter: pending := value & 0b1, then
schedule the commit. -/
def ic_write_interrupt_master_enable (sys : ICSys) (value : Nat) : ICSys :=
  { sched := ic_schedule_write sys.sched,
    ic := { sys.ic with pending_interrupt_master_enable := pyAnd value 1 } }

/-- Embeds InterruptController.signal: pending |= interrupt, then schedule
the commit. -/
def ic_signal (sys : ICSys) (value : Nat) : ICSys :=
  { sched := ic_schedule_write sys.sched,
    ic := { sys.ic with
      pending_interrupt_flags := pyOr sys.ic.pending_interrupt_flags value } }

/-- Embeds _write_interrupt_registers: the pending values become live, HALT
wakes when an enabled interrupt is pending, and if the recomputed line
differs from irq_line an _update_irq_line event is scheduled with
UPDATE_IRQ_LINE_DELAY = 2. -/
def ic_write_interrupt_registers (sys : ICSys) : ICSys :=
  let ie := sys.ic.pending_interrupt_enable
  let iflags := sys.ic.pending_interrupt_flags
  let ime := sys.ic.pending_interrupt_master_enable
  let ia := pyAnd ie iflags
  let power :=
    if ia ≠ 0 ∧ sys.ic.power_down_mode = 1 then 0 else sys.ic.power_down_mode
  let new_irq_line : Bool := decide (ia ≠ 0) && decide (ime ≠ 0)
  let ic1 := { sys.ic with
    interrupt_enable := ie
    interrupt_flags := iflags
    interrupt_master_enable := ime
    power_down_mode := power }
  if new_irq_line ≠ sys.ic.irq_line then
    { sched := sched_schedule sys.sched (ICAction.lineUpdate new_irq_line) 2
        EventTrigger.IMMEDIATELY,
      ic := ic1 }
  else
    { sys with ic := ic1 }

/-- Invokes the bound method a popped event carries. -/
def icDispatch (sys : ICSys) (a : ICAction) : ICSys :=
  match a with
  | ICAction.commit => ic_write_interrupt_registers sys
  | ICAction.lineUpdate v => { sys with ic := { sys.ic with irq_line := v } }

/-- Scheduler.process_events with the InterruptController callbacks wired
in.  An event pushed during processing carries a strictly future time, so
the pops are bounded by the initial heap length and fuel = length + 1
suffices. -/
def icProcessAux : Nat → ICSys → ICSys
  | 0, sys => sys
  | fuel + 1, sys =>
    match sys.sched.events with
    | [] => sys
    | e0 :: _ =>
      if e0.time ≤ sys.sched.cycles then
        match heappop sys.sched.events with
        | some (e, rest) =>
          let sys1 : ICSys := { sys with sched := { sys.sched with events := rest } }
          if e.cancelled then icProcessAux fuel sys1
          else icProcessAux fuel (icDispatch sys1 e.callback)
        | none => sys
      else sys

/-- Runs Scheduler.process_events on the interrupt-controller system. -/
def icProcess (sys : ICSys) : ICSys :=
  icProcessAux (sys.sched.events.length + 1) sys

/-- One emulated cycle as the emulator core drives it: the clock advances by
one, then due events are processed. -/
def icStep (sys : ICSys) : ICSys :=
  icProcess { sys with sched := sched_idle sys.sched 1 }

/-- n emulated cycles. -/
def icRun : ICSys → Nat → ICSys
  | sys, 0 => sys
  | sys, n + 1 => icRun (icStep sys) n

/-- The CPU-visible register writes (and signal) of the claim. -/
inductive ICWrite where
  | writeIE (v : Nat)
  | writeIF (v : Nat)
  | writeIME (v : Nat)
  | signalIRQ (v : Nat)

/-- Applies one register write. -/
def ic_apply_write (sys : ICSys) : ICWrite → ICSys
  | ICWrite.writeIE v => ic_write_interrupt_enable sys v
  | ICWrite.writeIF v => ic_write_interrupt_flags sys v
  | ICWrite.writeIME v => ic_write_interrupt_master_enable sys v
  | ICWrite.signalIRQ v => ic_signal sys v

/-- The live register values of a system. -/
def icLive (sys : ICSys) : Nat × Nat × Nat :=
  (sys.ic.interrupt_enable, sys.ic.interrupt_flags, sys.ic.interrupt_master_enable)

/-- The pending register values of a system. -/
def icPending (sys : ICSys) : Nat × Nat × Nat :=
  (sys.ic.pending_interrupt_enable, sys.ic.pending_interrupt_flags,
   sys.ic.pending_interrupt_master_enable)

/-- The IRQ line computed from a register triple. -/
def icLineOf (p : Nat × Nat × Nat) : Bool :=
  decide (pyAnd p.1 p.2.1 ≠ 0) && decide (p.2.2 ≠ 0)

theorem heappush_nil [Inhabited α] (x : Event α) : heappush [] x = [x] := rfl

theorem heappop_singleton [Inhabited α] (e : Event α) : heappop [e] = some (e, []) := rfl

theorem icProcessAux_nil (fuel : Nat) (sys : ICSys) (h : sys.sched.events = []) :
    icProcessAux fuel sys = sys := by
  cases fuel with
  | zero => rfl
  | succ n => simp only [icProcessAux, h]

theorem icProcessAux_wait (fuel : Nat) (sys : ICSys) (e : Event ICAction)
    (rest : List (Event ICAction)) (h : sys.sched.events = e :: rest)
    (ht : ¬ e.time ≤ sys.sched.cycles) : icProcessAux fuel sys = sys := by
  cases fuel with
  | zero => rfl
  | succ n =>
    simp only [icProcessAux, h]
    rw [if_neg ht]

theorem icProcessAux_fire (fuel : Nat) (c : Nat) (iv ihb : List (Event ICAction))
    (ic : ICState) (e : Event ICAction) (ht : e.time ≤ c) (hc : e.cancelled = false) :
    icProcessAux (fuel + 1) ⟨⟨c, [e], iv, ihb⟩, ic⟩ =
      icProcessAux fuel (icDispatch ⟨⟨c, [], iv, ihb⟩, ic⟩ e.callback) := by
  simp only [icProcessAux, heappop_singleton]
  rw [if_pos ht]
  simp [hc]

theorem icStep_nil (sys : ICSys) (h : sys.sched.events = []) :
    icStep sys =
      { sys with sched := { sys.sched with cycles := sys.sched.cycles + 1 } } :=
  icProcessAux_nil _ _ h

theorem icStep_wait (sys : ICSys) (e : Event ICAction) (rest : List (Event ICAction))
    (h : sys.sched.events = e :: rest) (ht : ¬ e.time ≤ sys.sched.cycles + 1) :
    icStep sys =
      { sys with sched := { sys.sched with cycles := sys.sched.cycles + 1 } } :=
  icProcessAux_wait _ _ e rest h ht

theorem icStep_fire (c : Nat) (iv ihb : List (Event ICAction)) (ic : ICState)
    (e : Event ICAction) (ht : e.time ≤ c + 1) (hc : e.cancelled = false) :
    icStep ⟨⟨c, [e], iv, ihb⟩, ic⟩ =
      icProcessAux 1 (icDispatch ⟨⟨c + 1, [], iv, ihb⟩, ic⟩ e.callback) :=
  icProcessAux_fire 1 (c + 1) iv ihb ic e ht hc

theorem icRun_nil (n : Nat) (sys : ICSys) (h : sys.sched.events = []) :
    icRun sys n =
      { sys with sched := { sys.sched with cycles := sys.sched.cycles + n } } := by
  induction n generalizing sys with
  | zero => rfl
  | succ m ih =>
    show icRun (icStep sys) m = _
    rw [icStep_nil sys h, ih _ (by exact h)]
    have e : sys.sched.cycles + 1 + m = sys.sched.cycles + (m + 1) := by omega
    rw [e]

set_option maxHeartbeats 1000000 in
/-- Claim C6: with the scheduler otherwise quiescent, a write to IE, IF or
IME (or a signal) is not immediately visible: the live register values are
unchanged after 0 cycles, equal the committed (pending) values from 1 cycle
on, and the irq_line field still has its old value through cycle 2 and
equals the line recomputed from the committed values from cycle 3 on — so
when the committed values change the computed line, the change lands
exactly 2 cycles after the commit and never earlier, and in particular an
IME 0-to-1 write with IE & IF nonzero raises the line no earlier than 3
total cycles after the write. -/
theorem interrupt_write_staging (sys : ICSys) (w : ICWrite)
    (hq : sys.sched.events = []) :
    icLive (icRun (ic_apply_write sys w) 0) = icLive sys ∧
    (∀ n, 1 ≤ n →
      icLive (icRun (ic_apply_write sys w) n) = icPending (ic_apply_write sys w)) ∧
    (∀ n, n ≤ 2 → (icRun (ic_apply_write sys w) n).ic.irq_line = sys.ic.irq_line) ∧
    (∀ n, 3 ≤ n →
      (icRun (ic_apply_write sys w) n).ic.irq_line =
        icLineOf (icPending (ic_apply_write sys w))) := by
  obtain ⟨⟨c0, ev, iv, ihb⟩, ic⟩ := sys
  replace hq : ev = [] := hq
  subst hq
  -- the post-write system, with the commit event in the heap
  have hA : ∃ ic1 : ICState,
      ic_apply_write ⟨⟨c0, [], iv, ihb⟩, ic⟩ w =
        ⟨⟨c0, [⟨ICAction.commit, 1, c0 + 1, false⟩], iv, ihb⟩, ic1⟩ ∧
      ic1.interrupt_enable = ic.interrupt_enable ∧
      ic1.interrupt_flags = ic.interrupt_flags ∧
      ic1.interrupt_master_enable = ic.interrupt_master_enable ∧
      ic1.irq_line = ic.irq_line := by
    cases w <;>
      exact ⟨_, rfl, rfl, rfl, rfl, rfl⟩
  obtain ⟨ic1, heq, hie, hif, him, hline⟩ := hA
  rw [heq]
  -- step 1 pops the commit event and runs _write_interrupt_registers
  have hfire : icStep ⟨⟨c0, [⟨ICAction.commit, 1, c0 + 1, false⟩], iv, ihb⟩, ic1⟩ =
      icProcessAux 1 (ic_write_interrupt_registers ⟨⟨c0 + 1, [], iv, ihb⟩, ic1⟩) :=
    icStep_fire c0 iv ihb ic1 ⟨ICAction.commit, 1, c0 + 1, false⟩ (Nat.le_refl _) rfl
  -- the committed controller state
  by_cases hnl : icLineOf (ic1.pending_interrupt_enable, ic1.pending_interrupt_flags,
      ic1.pending_interrupt_master_enable) = ic1.irq_line
  · -- the recomputed line equals the old one: no update event is scheduled
    have hr : ∃ pw, ic_write_interrupt_registers ⟨⟨c0 + 1, [], iv, ihb⟩, ic1⟩ =
        ⟨⟨c0 + 1, [], iv, ihb⟩,
         { ic1 with
           interrupt_enable := ic1.pending_interrupt_enable
           interrupt_flags := ic1.pending_interrupt_flags
           interrupt_master_enable := ic1.pending_interrupt_master_enable
           power_down_mode := pw }⟩ := by
      refine ⟨if pyAnd ic1.pending_interrupt_enable ic1.pending_interrupt_flags ≠ 0 ∧
          ic1.power_down_mode = 1 then 0 else ic1.power_down_mode, ?_⟩
      simp only [ic_write_interrupt_registers]
      rw [if_neg]
      simp only [icLineOf] at hnl
      simpa using hnl
    obtain ⟨pw, hr⟩ := hr
    have hs2 : icStep ⟨⟨c0, [⟨ICAction.commit, 1, c0 + 1, false⟩], iv, ihb⟩, ic1⟩ =
        ⟨⟨c0 + 1, [], iv, ihb⟩,
         { ic1 with
           interrupt_enable := ic1.pending_interrupt_enable
           interrupt_flags := ic1.pending_interrupt_flags
           interrupt_master_enable := ic1.pending_interrupt_master_enable
           power_down_mode := pw }⟩ := by
      rw [hfire, hr, icProcessAux_nil 1 _ rfl]
    refine ⟨?_, ?_, ?_, ?_⟩
    · simp [icRun, icLive, hie, hif, him]
    · intro n hn
      obtain ⟨m, rfl⟩ : ∃ m, n = m + 1 := ⟨n - 1, by omega⟩
      show icLive (icRun (icStep _) m) = _
      rw [hs2, icRun_nil m _ rfl]
      simp [icLive, icPending]
    · intro n hn
      interval_cases n
      · simpa [icRun] using hline
      · show (icRun (icStep _) 0).ic.irq_line = _
        rw [hs2]
        simpa [icRun] using hline
      · show (icRun (icStep _) 1).ic.irq_line = _
        rw [hs2, icRun_nil 1 _ rfl]
        simpa using hline
    · intro n hn
      obtain ⟨m, rfl⟩ : ∃ m, n = m + 1 := ⟨n - 1, by omega⟩
      show (icRun (icStep _) m).ic.irq_line = _
      rw [hs2, icRun_nil m _ rfl]
      simp only [icPending]
      simpa using hnl.symm
  · -- the recomputed line differs: an update event is scheduled at +2
    have hr : ∃ pw, ic_write_interrupt_registers ⟨⟨c0 + 1, [], iv, ihb⟩, ic1⟩ =
        ⟨⟨c0 + 1,
          [⟨ICAction.lineUpdate (icLineOf (ic1.pending_interrupt_enable,
             ic1.pending_interrupt_flags, ic1.pending_interrupt_master_enable)),
            2, c0 + 3, false⟩], iv, ihb⟩,
         { ic1 with
           interrupt_enable := ic1.pending_interrupt_enable
           interrupt_flags := ic1.pending_interrupt_flags
           interrupt_master_enable := ic1.pending_interrupt_master_enable
           power_down_mode := pw }⟩ := by
      refine ⟨if pyAnd ic1.pending_interrupt_enable ic1.pending_interrupt_flags ≠ 0 ∧
          ic1.power_down_mode = 1 then 0 else ic1.power_down_mode, ?_⟩
      simp only [ic_write_interrupt_registers]
      rw [if_pos]
      · simp [sched_schedule, heappush_nil, icLineOf]
      · simp only [icLineOf] at hnl
        simpa using hnl
    obtain ⟨pw, hr⟩ := hr
    set lu : Event ICAction :=
      ⟨ICAction.lineUpdate (icLineOf (ic1.pending_interrupt_enable,
         ic1.pending_interrupt_flags, ic1.pending_interrupt_master_enable)),
       2, c0 + 3, false⟩ with hlu
    set ic2 : ICState :=
      { ic1 with
        interrupt_enable := ic1.pending_interrupt_enable
        interrupt_flags := ic1.pending_interrupt_flags
        interrupt_master_enable := ic1.pending_interrupt_master_enable
        power_down_mode := pw } with hic2
    have hs2 : icStep ⟨⟨c0, [⟨ICAction.commit, 1, c0 + 1, false⟩], iv, ihb⟩, ic1⟩ =
        ⟨⟨c0 + 1, [lu], iv, ihb⟩, ic2⟩ := by
      rw [hfire, hr, icProcessAux_wait 1 _ lu [] rfl
        (by show ¬ c0 + 3 ≤ c0 + 1; omega)]
    have hs3 : icStep (⟨⟨c0 + 1, [lu], iv, ihb⟩, ic2⟩ : ICSys) =
        ⟨⟨c0 + 2, [lu], iv, ihb⟩, ic2⟩ :=
      icStep_wait _ lu [] rfl (by show ¬ c0 + 3 ≤ c0 + 1 + 1; omega)
    have hs4 : icStep (⟨⟨c0 + 2, [lu], iv, ihb⟩, ic2⟩ : ICSys) =
        ⟨⟨c0 + 3, [], iv, ihb⟩,
         { ic2 with irq_line := icLineOf (ic1.pending_interrupt_enable,
             ic1.pending_interrupt_flags, ic1.pending_interrupt_master_enable) }⟩ := by
      rw [icStep_fire (c0 + 2) iv ihb ic2 lu (by show c0 + 3 ≤ c0 + 2 + 1; omega) rfl]
      exact icProcessAux_nil 1 _ rfl
    refine ⟨?_, ?_, ?_, ?_⟩
    · simp [icRun, icLive, hie, hif, him]
    · intro n hn
      obtain ⟨m, rfl⟩ : ∃ m, n = m + 1 := ⟨n - 1, by omega⟩
      show icLive (icRun (icStep _) m) = _
      rw [hs2]
      match m with
      | 0 => simp [icRun, icLive, icPending, hic2]
      | k + 1 =>
        show icLive (icRun (icStep _) k) = _
        rw [hs3]
        match k with
        | 0 => simp [icRun, icLive, icPending, hic2]
        | j + 1 =>
          show icLive (icRun (icStep _) j) = _
          rw [hs4, icRun_nil j _ rfl]
          simp [icLive, icPending, hic2]
    · intro n hn
      interval_cases n
      · simpa [icRun] using hline
      · show (icRun (icStep _) 0).ic.irq_line = _
        rw [hs2]
        simpa [icRun, hic2] using hline
      · show (icRun (icStep _) 1).ic.irq_line = _
        rw [hs2]
        show (icRun (icStep _) 0).ic.irq_line = _
        rw [hs3]
        simpa [icRun, hic2] using hline
    · intro n hn
      obtain ⟨m, rfl⟩ : ∃ m, n = m + 3 := ⟨n - 3, by omega⟩
      show (icRun (icStep _) (m + 2)).ic.irq_line = _
      rw [hs2]
      show (icRun (icStep _) (m + 1)).ic.irq_line = _
      rw [hs3]
      show (icRun (icStep _) m).ic.irq_line = _
      rw [hs4, icRun_nil m _ rfl]
      simp [icPending]

/-- The C6 witness system: IE = IF = 1 live and pending, IME = 0, line low,
scheduler quiescent at cycle 0. -/
def icWitnessSys : ICSys :=
  { sched := { cycles := 0, events := [], inactive_vblank := [], inactive_hblank := [] },
    ic := { interrupt_enable := 1, interrupt_flags := 1, interrupt_master_enable := 0,
            pending_interrupt_enable := 1, pending_interrupt_flags := 1,
            pending_interrupt_master_enable := 0, irq_line := false,
            power_down_mode := 0 } }

/-- Witness for C6: writing IME = 1 while IE & IF = 1 leaves the line low
through cycle 2 and raises it at cycle 3. -/
theorem interrupt_write_staging_witness :
    (icRun (ic_apply_write icWitnessSys (ICWrite.writeIME 1)) 2).ic.irq_line = false ∧
    (icRun (ic_apply_write icWitnessSys (ICWrite.writeIME 1)) 3).ic.irq_line = true := by
  have h := interrupt_write_staging icWitnessSys (ICWrite.writeIME 1) rfl
  constructor
  · rw [h.2.2.1 2 (by decide)]; rfl
  · rw [h.2.2.2 3 (by decide)]; decide

/-! ## ppu/memory.py and memory/memory.py: the video byte-write quirks

The byte stores become functions Nat → Nat updated pointwise.
memory/constants.py is not part of the sources, so the MemoryRegion
constants it provides are modelled from the spec (section 3: PALRAM 1 KiB,
VRAM 96 KiB mirrored to 128 KiB — bit 16 set masks to the 32 KiB upper
block, else to the 64 KiB base block — OAM 1 KiB; region bytes from the
base addresses 0x05000000, 0x06000000, 0x07000000). -/

/-- Modelled from the spec: MemoryRegion.PALRAM_MASK wraps the 1 KiB
palette RAM. -/
def PALRAM_MASK : Nat := 0x3FF

/-- Modelled from the spec: MemoryRegion.OAM_MASK wraps the 1 KiB object
attribute memory. -/
def OAM_MASK : Nat := 0x3FF

/-- Modelled from the spec: MemoryRegion.VRAM_MASK_1, the mask used when
bit 16 of the address is set, wrapping into the 32 KiB upper block at
offset 0x10000. -/
def VRAM_MASK_1 : Nat := 0x17FFF

/-- Modelled from the spec: MemoryRegion.VRAM_MASK_2, the mask used when
bit 16 of the address is clear, wrapping into the 64 KiB base block. -/
def VRAM_MASK_2 : Nat := 0xFFFF

/-- Modelled from the spec: MemoryRegion.PALRAM_REGION, the top byte of the
PALRAM base address 0x05000000. -/
def PALRAM_REGION : Nat := 0x05

/-- Modelled from the spec: MemoryRegion.VRAM_REGION, the top byte of the
VRAM base address 0x06000000. -/
def VRAM_REGION : Nat := 0x06

/-- Modelled from the spec: MemoryRegion.OAM_REGION, the top byte of the
OAM base address 0x07000000. -/
def OAM_REGION : Nat := 0x07

/-- Embeds ppu/registers.py VideoMode(get_bits(reg, 0, 2)) as its numeric
value: _missing_ maps 6 and 7 to MODE_5. -/
def video_mode (reg : Nat) : Nat :=
  let v := get_bits reg 0 2
  if v = 6 ∨ v = 7 then 5 else v

/-- Embeds VideoMode.bitmapped: the mode is MODE_3, MODE_4 or MODE_5. -/
def video_mode_bitmapped (reg : Nat) : Bool :=
  decide (video_mode reg = 3 ∨ video_mode reg = 4 ∨ video_mode reg = 5)

/-- Embeds VideoMemory: the three byte stores and the reg field of the
shared DisplayControlRegister. -/
structure VideoMemory where
  palram : Nat → Nat
  vram : Nat → Nat
  oam : Nat → Nat
  dispcnt_reg : Nat

/-- Embeds utils.array_read_16. -/
def array_read_16 (arr : Nat → Nat) (address : Nat) : Nat :=
  pyOr (arr address) (arr (address + 1) <<< 8)

/-- Embeds VideoMemory._get_vram_address_mask. -/
def get_vram_address_mask (address : Nat) : Nat :=
  if get_bit address 16 ≠ 0 then VRAM_MASK_1 else VRAM_MASK_2

/-- Embeds VideoMemory.read_16_palram. -/
def read_16_palram (vm : VideoMemory) (address : Nat) : Nat :=
  array_read_16 vm.palram (pyAnd address PALRAM_MASK)

/-- Embeds VideoMemory.read_16_vram. -/
def read_16_vram (vm : VideoMemory) (address : Nat) : Nat :=
  array_read_16 vm.vram (pyAnd address (get_vram_address_mask address))

/-- Embeds VideoMemory.write_8_palram: the address is aligned down
(address & ~0b1) and the byte is stored at both the aligned address and
its successor, each wrapped by PALRAM_MASK. -/
def write_8_palram (vm : VideoMemory) (address value : Nat) : VideoMemory :=
  let address := pyLdiff address 1
  let p1 := Function.update vm.palram (pyAnd address PALRAM_MASK) value
  { vm with palram := Function.update p1 (pyAnd (address + 1) PALRAM_MASK) value }

/-- Embeds VideoMemory.write_8_vram: writes into the OBJ region (at or past
bg_region_end within the 128 KiB window) are ignored; BG writes are aligned
down and duplicated into both bytes of the halfword, each byte wrapped by
the mask for its own address. -/
def write_8_vram (vm : VideoMemory) (address value : Nat) : VideoMemory :=
  let bg_region_end : Nat :=
    if video_mode_bitmapped vm.dispcnt_reg then 0x14000 else 0x10000
  if pyAnd address 0x1FFFF < bg_region_end then
    let address := pyLdiff address 1
    let mask_1 := get_vram_address_mask address
    let mask_2 := get_vram_address_mask (address + 1)
    let v1 := Function.update vm.vram (pyAnd address mask_1) value
    { vm with vram := Function.update v1 (pyAnd (address + 1) mask_2) value }
  else vm

/-- Embeds the video-region slice of Memory._write_8_internal: the value is
masked to a byte, the region is the top address byte, and a byte write to
the OAM region is ignored. -/
def mem_write_8_video (vm : VideoMemory) (address value : Nat) : VideoMemory :=
  let value := pyAnd value 0xFF
  let region := address >>> 24
  if region = PALRAM_REGION then write_8_palram vm address value
  else if region = VRAM_REGION then write_8_vram vm address value
  else if region = OAM_REGION then vm
  else vm

theorem or_one_of_even (n : Nat) (h : n % 2 = 0) : n ||| 1 = n + 1 := by
  apply Nat.eq_of_testBit_eq
  intro i
  cases i with
  | zero =>
    simp only [Nat.testBit_or, Nat.testBit_to_div_mod, pow_zero, Nat.div_one]
    have h1 : (n + 1) % 2 = 1 := by omega
    simp [h, h1]
  | succ j =>
    have h1f : Nat.testBit 1 (j + 1) = false := by
      have h1 : (1 : Nat) / 2 ^ (j + 1) = 0 :=
        Nat.div_eq_of_lt (Nat.one_lt_two_pow (by omega))
      simp [Nat.testBit_to_div_mod, h1]
    rw [Nat.testBit_or, h1f, Bool.or_false]
    have hp : (n + 1) / 2 ^ (j + 1) = n / 2 ^ (j + 1) := by
      rw [pow_succ, Nat.mul_comm, ← Nat.div_div_eq_div_mul, ← Nat.div_div_eq_div_mul]
      congr 1
      omega
    simp [Nat.testBit_to_div_mod, hp]

theorem and_succ_even (a m : Nat) (ha : a % 2 = 0) (hm : m % 2 = 1) :
    (a + 1) &&& m = (a &&& m) + 1 := by
  have h1 : a + 1 = a ||| 1 := (or_one_of_even a ha).symm
  have heven : (a &&& m) % 2 = 0 := by
    rw [← Nat.and_one_is_mod, Nat.and_assoc, Nat.and_one_is_mod, hm,
      Nat.and_one_is_mod, ha]
  have h2 : (a &&& m) + 1 = (a &&& m) ||| 1 := (or_one_of_even _ heven).symm
  rw [h1, h2]
  apply Nat.eq_of_testBit_eq
  intro i
  simp only [Nat.testBit_or, Nat.testBit_and]
  cases i with
  | zero =>
    have hm1 : Nat.testBit m 0 = true := by
      simp [Nat.testBit_to_div_mod, hm]
    have h11 : Nat.testBit 1 0 = true := by simp
    simp [hm1, h11]
  | succ j =>
    have h1j : Nat.testBit 1 (j + 1) = false := by
      have h1 : (1 : Nat) / 2 ^ (j + 1) = 0 :=
        Nat.div_eq_of_lt (Nat.one_lt_two_pow (by omega))
      simp [Nat.testBit_to_div_mod, h1]
    rw [h1j]
    cases Nat.testBit a (j + 1) <;> cases Nat.testBit m (j + 1) <;> simp

theorem pyAnd_succ_even (a m : Nat) (ha : a % 2 = 0) (hm : m % 2 = 1) :
    pyAnd (a + 1) m = pyAnd a m + 1 := by
  rw [pyAnd_eq, pyAnd_eq]
  exact and_succ_even a m ha hm

theorem pyLdiff_one_even (a : Nat) : pyLdiff a 1 % 2 = 0 := by
  rw [pyLdiff_eq]
  have h := Nat.testBit_ldiff a 1 0
  simp only [Nat.testBit_to_div_mod, pow_zero, Nat.div_one] at h
  simp at h
  omega

theorem testBit_16_succ_of_even (a : Nat) (ha : a % 2 = 0) :
    Nat.testBit (a + 1) 16 = Nat.testBit a 16 := by
  have hp : (a + 1) / 65536 = a / 65536 := by omega
  simp [Nat.testBit_to_div_mod, hp]

theorem get_vram_address_mask_succ (a : Nat) (ha : a % 2 = 0) :
    get_vram_address_mask (a + 1) = get_vram_address_mask a := by
  unfold get_vram_address_mask
  rw [get_bit_eq_testBit, get_bit_eq_testBit, testBit_16_succ_of_even a ha]

theorem get_vram_address_mask_odd (a : Nat) : get_vram_address_mask a % 2 = 1 := by
  unfold get_vram_address_mask
  split <;> decide

/-- Claim C7: the byte-write quirks of video memory.  A byte write into the
PALRAM region duplicates the (byte-masked) value into both bytes of the
containing aligned halfword, as does a byte write into the BG region of
VRAM; a byte write at or past the BG cutoff in the 128 KiB VRAM window is
ignored, as is any byte write into the OAM region; and the cutoff is
0x14000 exactly when the current video mode is bitmapped and 0x10000
otherwise. -/
theorem video_byte_write_quirks (vm : VideoMemory) (address value : Nat) :
    (address >>> 24 = PALRAM_REGION →
      read_16_palram (mem_write_8_video vm address value) (pyLdiff address 1) =
        pyOr (pyAnd value 0xFF) (pyAnd value 0xFF <<< 8)) ∧
    (address >>> 24 = VRAM_REGION →
      pyAnd address 0x1FFFF <
          (if video_mode_bitmapped vm.dispcnt_reg then 0x14000 else 0x10000) →
      read_16_vram (mem_write_8_video vm address value) (pyLdiff address 1) =
        pyOr (pyAnd value 0xFF) (pyAnd value 0xFF <<< 8)) ∧
    (address >>> 24 = VRAM_REGION →
      ¬ pyAnd address 0x1FFFF <
          (if video_mode_bitmapped vm.dispcnt_reg then 0x14000 else 0x10000) →
      mem_write_8_video vm address value = vm) ∧
    (address >>> 24 = OAM_REGION →
      mem_write_8_video vm address value = vm) := by
  have ha : pyLdiff address 1 % 2 = 0 := pyLdiff_one_even address
  refine ⟨?_, ?_, ?_, ?_⟩
  · intro h5
    simp only [mem_write_8_video]
    rw [if_pos h5]
    simp only [write_8_palram, read_16_palram, array_read_16]
    rw [pyAnd_succ_even _ _ ha (by decide)]
    rw [Function.update_same]
    rw [Function.update_noteq (by omega)]
    rw [Function.update_same]
  · intro h6 hlt
    simp only [mem_write_8_video]
    rw [if_neg (by rw [h6]; decide), if_pos h6]
    simp only [write_8_vram]
    rw [if_pos hlt]
    simp only [read_16_vram, array_read_16]
    rw [get_vram_address_mask_succ _ ha]
    rw [pyAnd_succ_even _ _ ha (get_vram_address_mask_odd _)]
    rw [Function.update_same]
    rw [Function.update_noteq (by omega)]
    rw [Function.update_same]
  · intro h6 hnlt
    simp only [mem_write_8_video]
    rw [if_neg (by rw [h6]; decide), if_pos h6]
    simp only [write_8_vram]
    rw [if_neg hnlt]
  · intro h7
    simp only [mem_write_8_video]
    rw [if_neg (by rw [h7]; decide), if_neg (by rw [h7]; decide), if_pos h7]

/-- Witness for C7 at concrete inputs: a PALRAM byte write at 0x05000003
(value 0xAB) reads back 0xABAB from the aligned halfword; an OBJ-region
VRAM byte write at 0x06010000 in a non-bitmapped mode is dropped; an OAM
byte write at 0x07000000 is dropped. -/
theorem video_byte_write_quirks_witness :
    read_16_palram
      (mem_write_8_video ⟨fun _ => 0, fun _ => 0, fun _ => 0, 0⟩ 0x05000003 0xAB)
      (pyLdiff 0x05000003 1) = 0xABAB ∧
    mem_write_8_video ⟨fun _ => 0, fun _ => 0, fun _ => 0, 0⟩ 0x06010000 0xAB =
      ⟨fun _ => 0, fun _ => 0, fun _ => 0, 0⟩ ∧
    mem_write_8_video ⟨fun _ => 0, fun _ => 0, fun _ => 0, 0⟩ 0x07000000 0xAB =
      ⟨fun _ => 0, fun _ => 0, fun _ => 0, 0⟩ := by
  refine ⟨?_, ?_, ?_⟩
  · rw [(video_byte_write_quirks ⟨fun _ => 0, fun _ => 0, fun _ => 0, 0⟩
      0x05000003 0xAB).1 (by decide)]
    decide
  · exact (video_byte_write_quirks ⟨fun _ => 0, fun _ => 0, fun _ => 0, 0⟩
      0x06010000 0xAB).2.2.1 (by decide) (by decide)
  · exact (video_byte_write_quirks ⟨fun _ => 0, fun _ => 0, fun _ => 0, 0⟩
      0x07000000 0xAB).2.2.2 (by decide)

/-! ## ppu/ppu.py: the scanline renderer

The scanline buffers become functions over pixel coordinates; each Python
loop `for x in range(DISPLAY_WIDTH)` that assigns buffer[x] becomes a
pointwise redefinition guarded by x < DISPLAY_WIDTH.  ppu/constants.py is
not part of the sources; its constants are modelled from the spec (240×160
display, halfword colours, 8×8 tiles with 32×32-tile map blocks of 16-bit
entries, tile set blocks of 0x4000 bytes, TRANSPARENT as the clear value of
the scanline buffers — 0x8000, the one halfword outside the 15-bit colour
range). -/

/-- Modelled from the spec: ppu/constants.py DISPLAY_WIDTH (240×160
frame buffers). -/
def DISPLAY_WIDTH : Nat := 240

/-- Modelled from the spec: ppu/constants.py DISPLAY_HEIGHT. -/
def DISPLAY_HEIGHT : Nat := 160

/-- Modelled from the spec: ppu/constants.py TRANSPARENT_COLOUR, the value
the background and object scanline buffers are cleared to; the frame buffer
holds 15-bit BGR halfwords, and the transparent sentinel is the halfword
with only bit 15 set. -/
def TRANSPARENT_COLOUR : Nat := 0x8000

/-- Modelled from the spec: ppu/constants.py COLOUR_SIZE, bytes per
halfword colour. -/
def COLOUR_SIZE : Nat := 2

/-- Modelled from the spec: ppu/constants.py SMALL_DISPLAY_WIDTH, the
MODE_5 bitmap width. -/
def SMALL_DISPLAY_WIDTH : Nat := 160

/-- Modelled from the spec: ppu/constants.py SMALL_DISPLAY_HEIGHT, the
MODE_5 bitmap height. -/
def SMALL_DISPLAY_HEIGHT : Nat := 128

/-- Modelled from the spec: ppu/constants.py VRAM_PAGE_OFFSET, the second
bitmap page at VRAM offset 0xA000. -/
def VRAM_PAGE_OFFSET : Nat := 0xA000

/-- Modelled from the spec: ppu/constants.py TILE_WIDTH (8×8 tiles). -/
def TILE_WIDTH : Nat := 8

/-- Modelled from the spec: ppu/constants.py TILE_HEIGHT. -/
def TILE_HEIGHT : Nat := 8

/-- Modelled from the spec: ppu/constants.py TILE_SIZE, bytes per 8 bpp
tile (8×8 pixels, one byte each). -/
def TILE_SIZE : Nat := 64

/-- Modelled from the spec: ppu/constants.py TILE_MAP_BLOCK_WIDTH, tiles
per map-block row. -/
def TILE_MAP_BLOCK_WIDTH : Nat := 32

/-- Modelled from the spec: ppu/constants.py TILE_MAP_BLOCK_HEIGHT. -/
def TILE_MAP_BLOCK_HEIGHT : Nat := 32

/-- Modelled from the spec: ppu/constants.py TILE_MAP_ENTRY_SIZE, bytes per
16-bit tile map entry. -/
def TILE_MAP_ENTRY_SIZE : Nat := 2

/-- Modelled from the spec: ppu/constants.py TILE_MAP_BLOCK_SIZE, bytes per
32×32-entry map block. -/
def TILE_MAP_BLOCK_SIZE : Nat := 0x800

/-- Modelled from the spec: ppu/constants.py TILE_SET_BLOCK_SIZE (tile set
address = tile-set-block × 0x4000). -/
def TILE_SET_BLOCK_SIZE : Nat := 0x4000

/-- Modelled from the spec: ppu/constants.py LayerType.OBJ; the window
control register holds layer-display bits BG0..BG3 then OBJ, so OBJ is
layer 4. -/
def LAYER_OBJ : Nat := 4

/-- Embeds DisplayControlRegister.page_select (ppu/registers.py). -/
def dispcnt_page_select (reg : Nat) : Nat := get_bit reg 4

/-- Embeds DisplayControlRegister.obj_vram_dimension. -/
def dispcnt_obj_vram_dimension (reg : Nat) : Nat := get_bit reg 6

/-- Embeds DisplayControlRegister.force_blank. -/
def dispcnt_force_blank (reg : Nat) : Nat := get_bit reg 7

/-- Embeds DisplayControlRegister.display_bg. -/
def dispcnt_display_bg (reg bg_num : Nat) : Nat := get_bit reg (8 + bg_num)

/-- Embeds DisplayControlRegister.display_obj. -/
def dispcnt_display_obj (reg : Nat) : Nat := get_bit reg 12

/-- Embeds DisplayControlRegister.display_window. -/
def dispcnt_display_window (reg window : Nat) : Nat := get_bit reg (13 + window)

/-- Embeds BackgroundControlRegister.priority. -/
def bgcnt_priority (reg : Nat) : Nat := get_bits reg 0 1

/-- Embeds BackgroundControlRegister.tile_set_block. -/
def bgcnt_tile_set_block (reg : Nat) : Nat := get_bits reg 2 3

/-- Embeds BackgroundControlRegister.colour_256. -/
def bgcnt_colour_256 (reg : Nat) : Nat := get_bit reg 7

/-- Embeds BackgroundControlRegister.tile_map_block. -/
def bgcnt_tile_map_block (reg : Nat) : Nat := get_bits reg 8 12

/-- Embeds BackgroundControlRegister.size. -/
def bgcnt_size (reg : Nat) : Nat := get_bits reg 14 15

/-- Embeds WindowControlRegister.display_layer. -/
def wincnt_display_layer (reg layer_type : Nat) : Nat := get_bit reg layer_type

/-- Embeds VideoMemory.read_8_vram. -/
def read_8_vram (vm : VideoMemory) (address : Nat) : Nat :=
  vm.vram (pyAnd address (get_vram_address_mask address))

/-- Embeds utils.array_write_16. -/
def array_write_16 (arr : Nat → Nat) (address value : Nat) : Nat → Nat :=
  Function.update (Function.update arr address (pyAnd value 0xFF))
    (address + 1) (pyAnd (value >>> 8) 0xFF)

/-- Embeds VideoMemory.write_16_vram. -/
def write_16_vram (vm : VideoMemory) (address value : Nat) : VideoMemory :=
  { vm with vram :=
      array_write_16 vm.vram (pyAnd address (get_vram_address_mask address)) value }

theorem or_shift8 (x y : Nat) (hx : x < 256) : x ||| (y <<< 8) = x + 256 * y := by
  apply Nat.eq_of_testBit_eq
  intro i
  rw [Nat.testBit_or, Nat.testBit_shiftLeft]
  rcases Nat.lt_or_ge i 8 with hi | hi
  · have hd : ¬ (8 ≤ i) := by omega
    simp only [hd, decide_False, Bool.false_and, Bool.or_false]
    rw [Nat.testBit_to_div_mod, Nat.testBit_to_div_mod]
    have hsplit : 256 * y = 2 ^ i * (2 ^ (8 - i) * y) := by
      rw [← Nat.mul_assoc, ← pow_add]
      have he : i + (8 - i) = 8 := by omega
      rw [he]
      norm_num
    have h2 : (x + 256 * y) / 2 ^ i = x / 2 ^ i + 2 ^ (8 - i) * y := by
      rw [hsplit, Nat.add_mul_div_left _ _ (Nat.pos_pow_of_pos i (by omega))]
    rw [h2]
    have h3 : 2 ^ (8 - i) * y % 2 = 0 := by
      have he : 2 ^ (8 - i) * y = 2 * (2 ^ (7 - i) * y) := by
        rw [← Nat.mul_assoc]
        have he2 : 2 * 2 ^ (7 - i) = 2 ^ (8 - i) := by
          rw [← pow_succ']
          have : 7 - i + 1 = 8 - i := by omega
          rw [this]
        rw [he2]
      omega
    simp only [decide_eq_decide]
    omega
  · simp only [hi, decide_True, Bool.true_and]
    have h28 : (256 : Nat) ≤ 2 ^ i := by
      calc (256 : Nat) = 2 ^ 8 := by norm_num
        _ ≤ 2 ^ i := Nat.pow_le_pow_right (by omega) hi
    have hx0 : Nat.testBit x i = false :=
      Nat.testBit_lt_two_pow (lt_of_lt_of_le hx h28)
    rw [hx0, Bool.false_or]
    obtain ⟨j, rfl⟩ : ∃ j, i = 8 + j := ⟨i - 8, by omega⟩
    rw [Nat.testBit_to_div_mod, Nat.testBit_to_div_mod]
    have hdiv : (x + 256 * y) / 2 ^ (8 + j) = y / 2 ^ j := by
      rw [pow_add, ← Nat.div_div_eq_div_mul]
      have h256 : (2 : Nat) ^ 8 = 256 := by norm_num
      have hfirst : (x + 256 * y) / 2 ^ 8 = y := by
        rw [h256]
        omega
      rw [hfirst]
    rw [hdiv]
    have hj : 8 + j - 8 = j := by omega
    rw [hj]

/-- A 16-bit value written by write_16_vram reads back by read_16_vram at
the same address. -/
theorem write_read_16_vram (vm : VideoMemory) (address value : Nat)
    (hv : value < 65536) :
    read_16_vram (write_16_vram vm address value) address = value := by
  simp only [read_16_vram, write_16_vram, array_write_16, array_read_16]
  rw [Function.update_same]
  rw [Function.update_noteq (by omega)]
  rw [Function.update_same]
  rw [pyOr_eq, pyAnd_eq, pyAnd_eq]
  rw [Nat.and_pow_two_sub_one_eq_mod value 8, Nat.and_pow_two_sub_one_eq_mod _ 8]
  rw [Nat.shiftRight_eq_div_pow]
  rw [or_shift8 _ _ (by omega)]
  have h28 : (2 : Nat) ^ 8 = 256 := by norm_num
  rw [h28]
  omega

/-- The PPU fields the scanline renderer touches: registers, the video
memory, and the scanline/window/frame buffers as functions. -/
structure PPUScanState where
  dispcnt : Nat
  bg_control : Nat → Nat
  bg_offset_h : Nat → Nat
  bg_offset_v : Nat → Nat
  vcount : Nat
  window_h_min : Nat → Nat
  window_h_max : Nat → Nat
  window_v_min : Nat → Nat
  window_v_max : Nat → Nat
  window_control : Nat → Nat
  window_mask : Nat → Nat → Nat
  vm : VideoMemory
  bg_scanline : Nat → Nat → Nat
  obj_scanline : Nat → Nat → Nat
  scanline : Nat → Nat
  back_buffer : Nat → Nat

/-- Embeds PPU._init_layers: the composited scanline is filled with the
backdrop colour (0 under force blank), and every background and
object-priority scanline buffer is cleared to TRANSPARENT_COLOUR. -/
def ppu_init_layers (s : PPUScanState) : PPUScanState :=
  let backdrop :=
    if dispcnt_force_blank s.dispcnt ≠ 0 then 0 else read_16_palram s.vm 0
  { s with
    scanline := fun x => if x < DISPLAY_WIDTH then backdrop else s.scanline x,
    bg_scanline := fun bg x =>
      if x < DISPLAY_WIDTH then TRANSPARENT_COLOUR else s.bg_scanline bg x,
    obj_scanline := fun p x =>
      if x < DISPLAY_WIDTH then TRANSPARENT_COLOUR else s.obj_scanline p x }

/-- Embeds PPU._calc_window_masks: for WIN0 and WIN1 the mask row is 0 when
the window is not displayed or vcount is outside the (possibly wrapping)
vertical bounds, and otherwise marks the (possibly wrapping) horizontal
span; the WIN_OBJ mask row is cleared. -/
def ppu_calc_window_mask_row (s : PPUScanState) (w : Nat) : Nat → Nat :=
  let h_min := s.window_h_min w
  let h_max := s.window_h_max w
  let v_min := s.window_v_min w
  let v_max := s.window_v_max w
  let inside_v_bounds :=
    if v_min ≤ v_max then v_min ≤ s.vcount ∧ s.vcount < v_max
    else s.vcount < v_max ∨ s.vcount ≥ v_min
  if dispcnt_display_window s.dispcnt w = 0 ∨ ¬ inside_v_bounds then
    fun x => if x < DISPLAY_WIDTH then 0 else s.window_mask w x
  else if h_min ≤ h_max then
    fun x => if x < DISPLAY_WIDTH then
        (if h_min ≤ x ∧ x < h_max then 1 else 0) else s.window_mask w x
  else
    fun x => if x < DISPLAY_WIDTH then
        (if x < h_max ∨ x ≥ h_min then 1 else 0) else s.window_mask w x

/-- Embeds PPU._calc_window_masks. -/
def ppu_calc_window_masks (s : PPUScanState) : PPUScanState :=
  { s with window_mask := fun w x =>
      if w = 0 then ppu_calc_window_mask_row s 0 x
      else if w = 1 then ppu_calc_window_mask_row s 1 x
      else if w = 2 then (if x < DISPLAY_WIDTH then 0 else s.window_mask 2 x)
      else s.window_mask w x }

/-- Embeds PPU._get_palette_index. -/
def get_palette_index (vm : VideoMemory)
    (tile_base_address tile_index pixel_x pixel_y colour_256 palette_num : Nat) :
    Nat :=
  if colour_256 ≠ 0 then
    read_8_vram vm
      (tile_base_address + tile_index * TILE_SIZE + pixel_y * TILE_WIDTH + pixel_x)
  else
    let pixel_address := tile_base_address +
      (tile_index * TILE_SIZE + pixel_y * TILE_WIDTH + pixel_x) / 2
    let palette_index :=
      pyAnd (read_8_vram vm pixel_address >>> (pixel_x % 2 * 4)) 0xF
    if palette_index = 0 then 0 else palette_index + palette_num * 16

/-- Embeds the per-pixel body of PPU._render_background_text. -/
def ppu_text_pixel (s : PPUScanState) (bg_num x : Nat) : Nat :=
  let cr := s.bg_control bg_num
  let rel_y := s.vcount + s.bg_offset_v bg_num
  let tile_y := rel_y / TILE_HEIGHT
  let pixel_y := rel_y % TILE_HEIGHT
  let rel_x := x + s.bg_offset_h bg_num
  let tile_x := rel_x / TILE_WIDTH
  let pixel_x := rel_x % TILE_WIDTH
  let tmb0 := bgcnt_tile_map_block cr
  let tile_map_block :=
    if bgcnt_size cr = 1 then
      (if pyAnd tile_x TILE_MAP_BLOCK_WIDTH ≠ 0 then tmb0 + 1 else tmb0)
    else if bgcnt_size cr = 2 then
      (if pyAnd tile_y TILE_MAP_BLOCK_HEIGHT ≠ 0 then tmb0 + 1 else tmb0)
    else if bgcnt_size cr = 3 then
      tmb0 + (if pyAnd tile_x TILE_MAP_BLOCK_WIDTH ≠ 0 then 1 else 0) +
        (if pyAnd tile_y TILE_MAP_BLOCK_HEIGHT ≠ 0 then 2 else 0)
    else tmb0
  let tile_map_entry_address :=
    ((tile_y % TILE_MAP_BLOCK_HEIGHT) * TILE_MAP_BLOCK_WIDTH +
      tile_x % TILE_MAP_BLOCK_WIDTH) * TILE_MAP_ENTRY_SIZE +
      tile_map_block * TILE_MAP_BLOCK_SIZE
  let tile_map_entry := read_16_vram s.vm tile_map_entry_address
  let tile_num := get_bits tile_map_entry 0 9
  let tile_flip_h := get_bit tile_map_entry 10
  let tile_flip_v := get_bit tile_map_entry 11
  let palette_num := get_bits tile_map_entry 12 15
  let pixel_x_flipped :=
    if tile_flip_h ≠ 0 then TILE_WIDTH - pixel_x - 1 else pixel_x
  let pixel_y_flipped :=
    if tile_flip_v ≠ 0 then TILE_HEIGHT - pixel_y - 1 else pixel_y
  let palette_index := get_palette_index s.vm
    (bgcnt_tile_set_block cr * TILE_SET_BLOCK_SIZE) tile_num
    pixel_x_flipped pixel_y_flipped (bgcnt_colour_256 cr) palette_num
  if palette_index ≠ 0 then read_16_palram s.vm (palette_index * COLOUR_SIZE)
  else s.bg_scanline bg_num x

/-- Embeds PPU._render_background_text. -/
def ppu_render_background_text (s : PPUScanState) (bg_num : Nat) : PPUScanState :=
  if dispcnt_display_bg s.dispcnt bg_num = 0 then s
  else
    { s with bg_scanline := fun bg x =>
        if bg = bg_num ∧ x < DISPLAY_WIDTH then ppu_text_pixel s bg_num x
        else s.bg_scanline bg x }

/-- Embeds PPU._render_background_affine, whose body is only the
display-guard: affine backgrounds are not rendered. -/
def ppu_render_background_affine (s : PPUScanState) (bg_num : Nat) : PPUScanState :=
  if dispcnt_display_bg s.dispcnt bg_num = 0 then s else s

/-- Embeds PPU._render_background_bitmap: the paletted variant looks each
byte up in the palette (palette index 0 leaves the buffer); the
non-paletted variant stores the raw halfword read from VRAM, ignoring
page_offset. -/
def ppu_render_background_bitmap (s : PPUScanState) (paletted small : Bool) :
    PPUScanState :=
  if dispcnt_display_bg s.dispcnt 2 = 0 then s
  else
    let page_offset :=
      if dispcnt_page_select s.dispcnt ≠ 0 then VRAM_PAGE_OFFSET else 0
    let display_width := if small then SMALL_DISPLAY_WIDTH else DISPLAY_WIDTH
    if paletted then
      { s with bg_scanline := fun bg x =>
          if bg = 2 ∧ x < display_width then
            let palette_index :=
              read_8_vram s.vm (page_offset + display_width * s.vcount + x)
            if palette_index ≠ 0 then
              read_16_palram s.vm (palette_index * COLOUR_SIZE)
            else s.bg_scanline bg x
          else s.bg_scanline bg x }
    else
      { s with bg_scanline := fun bg x =>
          if bg = 2 ∧ x < display_width then
            read_16_vram s.vm ((display_width * s.vcount + x) * COLOUR_SIZE)
          else s.bg_scanline bg x }

/-- Embeds PPU._render_backgrounds: dispatch on the video mode. -/
def ppu_render_backgrounds (s : PPUScanState) : PPUScanState :=
  let vmode := video_mode s.dispcnt
  if vmode = 0 then
    ppu_render_background_text (ppu_render_background_text
      (ppu_render_background_text (ppu_render_background_text s 0) 1) 2) 3
  else if vmode = 1 then
    ppu_render_background_text
      (ppu_render_background_text (ppu_render_background_affine s 2) 1) 0
  else if vmode = 2 then
    ppu_render_background_affine (ppu_render_background_affine s 3) 2
  else if vmode = 3 then ppu_render_background_bitmap s false false
  else if vmode = 4 then ppu_render_background_bitmap s true false
  else if vmode = 5 then ppu_render_background_bitmap s false true
  else s

/-- PPU._render_objects begins with `if not display_obj: return`; the
embedding covers exactly that guard and leaves the object pass itself
outside the model (none), which suffices for states that do not display
objects. -/
def ppu_render_objects (s : PPUScanState) : Option PPUScanState :=
  if dispcnt_display_obj s.dispcnt = 0 then some s else none

/-- Embeds PPU._get_window_for_pixel: the first matched window mask among
WIN0, WIN1, WIN_OBJ selects its control register, else WIN_OUT (index 3). -/
def ppu_get_window_for_pixel (s : PPUScanState) (x : Nat) : Nat :=
  if s.window_mask 0 x ≠ 0 then s.window_control 0
  else if s.window_mask 1 x ≠ 0 then s.window_control 1
  else if s.window_mask 2 x ≠ 0 then s.window_control 2
  else s.window_control 3

/-- Embeds PPU._merge_layer: when windowing is enabled the pixel's window
control must display this layer type; non-transparent source pixels
overwrite the composited scanline. -/
def ppu_merge_layer (s : PPUScanState) (src : Nat → Nat) (layer_type : Nat) :
    PPUScanState :=
  let windowing_enabled :=
    dispcnt_display_window s.dispcnt 0 ≠ 0 ∨
    dispcnt_display_window s.dispcnt 1 ≠ 0 ∨
    dispcnt_display_window s.dispcnt 2 ≠ 0
  { s with scanline := fun x =>
      if x < DISPLAY_WIDTH then
        if windowing_enabled ∧
            wincnt_display_layer (ppu_get_window_for_pixel s x) layer_type = 0 then
          s.scanline x
        else if src x ≠ TRANSPARENT_COLOUR then src x
        else s.scanline x
      else s.scanline x }

/-- One iteration of the priority loop of PPU._merge_layers: backgrounds
3 down to 0 whose priority matches, then the objects of that priority. -/
def ppu_merge_priority (s : PPUScanState) (priority : Nat) : PPUScanState :=
  let s3 :=
    if dispcnt_display_bg s.dispcnt 3 ≠ 0 ∧ bgcnt_priority (s.bg_control 3) = priority
    then ppu_merge_layer s (s.bg_scanline 3) 3 else s
  let s2 :=
    if dispcnt_display_bg s3.dispcnt 2 ≠ 0 ∧
        bgcnt_priority (s3.bg_control 2) = priority
    then ppu_merge_layer s3 (s3.bg_scanline 2) 2 else s3
  let s1 :=
    if dispcnt_display_bg s2.dispcnt 1 ≠ 0 ∧
        bgcnt_priority (s2.bg_control 1) = priority
    then ppu_merge_layer s2 (s2.bg_scanline 1) 1 else s2
  let s0 :=
    if dispcnt_display_bg s1.dispcnt 0 ≠ 0 ∧
        bgcnt_priority (s1.bg_control 0) = priority
    then ppu_merge_layer s1 (s1.bg_scanline 0) 0 else s1
  if dispcnt_display_obj s0.dispcnt ≠ 0 then
    ppu_merge_layer s0 (s0.obj_scanline priority) LAYER_OBJ
  else s0

/-- Embeds PPU._merge_layers: priorities 3 down to 0, then the composited
scanline is copied into the back buffer row at vcount. -/
def ppu_merge_layers (s : PPUScanState) : PPUScanState :=
  let sa := ppu_merge_priority s 3
  let sb := ppu_merge_priority sa 2
  let sc := ppu_merge_priority sb 1
  let sd := ppu_merge_priority sc 0
  { sd with back_buffer := fun i =>
      if DISPLAY_WIDTH * sd.vcount ≤ i ∧ i < DISPLAY_WIDTH * sd.vcount + DISPLAY_WIDTH
      then sd.scanline (i - DISPLAY_WIDTH * sd.vcount)
      else sd.back_buffer i }

/-- Embeds the scanline portion of PPU.hblank_start (vcount below
DISPLAY_HEIGHT): init layers, window masks, backgrounds and objects unless
force blank, then the merge; none marks the unmodelled object pass. -/
def ppu_render_scanline (s : PPUScanState) : Option PPUScanState :=
  let s1 := ppu_init_layers s
  let s2 := ppu_calc_window_masks s1
  match (if dispcnt_force_blank s2.dispcnt = 0 then
      ppu_render_objects (ppu_render_backgrounds s2)
    else some s2) with
  | none => none
  | some s3 => some (ppu_merge_layers s3)

theorem bgcnt_priority_le (reg : Nat) : bgcnt_priority reg ≤ 3 := by
  unfold bgcnt_priority get_bits
  rw [pyAnd_eq]
  exact Nat.and_le_right

theorem ppu_merge_layer_scanline (s : PPUScanState) (src : Nat → Nat)
    (lt x : Nat)
    (hW0 : dispcnt_display_window s.dispcnt 0 = 0)
    (hW1 : dispcnt_display_window s.dispcnt 1 = 0)
    (hWO : dispcnt_display_window s.dispcnt 2 = 0)
    (hx : x < DISPLAY_WIDTH) :
    (ppu_merge_layer s src lt).scanline x =
      if src x ≠ TRANSPARENT_COLOUR then src x else s.scanline x := by
  have hnw : ¬ (dispcnt_display_window s.dispcnt 0 ≠ 0 ∨
      dispcnt_display_window s.dispcnt 1 ≠ 0 ∨
      dispcnt_display_window s.dispcnt 2 ≠ 0) := by
    simp [hW0, hW1, hWO]
  simp only [ppu_merge_layer]
  rw [if_pos hx, if_neg (fun h => hnw h.1)]

/-- One priority pass of the merge, described at a single pixel whose
non-BG2 background buffers are transparent and with windowing and objects
off: the fields other than the composited scanline are untouched, and the
pixel receives the BG2 buffer exactly when BG2 is displayed at this
priority with a non-transparent pixel. -/
theorem ppu_merge_priority_step (t : PPUScanState) (p x : Nat)
    (hx : x < DISPLAY_WIDTH)
    (hW0 : dispcnt_display_window t.dispcnt 0 = 0)
    (hW1 : dispcnt_display_window t.dispcnt 1 = 0)
    (hWO : dispcnt_display_window t.dispcnt 2 = 0)
    (hobj : dispcnt_display_obj t.dispcnt = 0)
    (h0 : t.bg_scanline 0 x = TRANSPARENT_COLOUR)
    (h1 : t.bg_scanline 1 x = TRANSPARENT_COLOUR)
    (h3 : t.bg_scanline 3 x = TRANSPARENT_COLOUR) :
    (ppu_merge_priority t p).dispcnt = t.dispcnt ∧
    (ppu_merge_priority t p).bg_control = t.bg_control ∧
    (ppu_merge_priority t p).bg_scanline = t.bg_scanline ∧
    (ppu_merge_priority t p).obj_scanline = t.obj_scanline ∧
    (ppu_merge_priority t p).vcount = t.vcount ∧
    (ppu_merge_priority t p).back_buffer = t.back_buffer ∧
    (ppu_merge_priority t p).scanline x =
      (if dispcnt_display_bg t.dispcnt 2 ≠ 0 ∧
          bgcnt_priority (t.bg_control 2) = p ∧
          t.bg_scanline 2 x ≠ TRANSPARENT_COLOUR
        then t.bg_scanline 2 x else t.scanline x) := by
  simp only [ppu_merge_priority]
  set t3 := if dispcnt_display_bg t.dispcnt 3 ≠ 0 ∧
      bgcnt_priority (t.bg_control 3) = p
    then ppu_merge_layer t (t.bg_scanline 3) 3 else t with ht3
  have f3 : t3.dispcnt = t.dispcnt ∧ t3.bg_control = t.bg_control ∧
      t3.bg_scanline = t.bg_scanline ∧ t3.obj_scanline = t.obj_scanline ∧
      t3.vcount = t.vcount ∧ t3.back_buffer = t.back_buffer ∧
      t3.window_mask = t.window_mask ∧ t3.window_control = t.window_control := by
    rw [ht3]
    split <;> exact ⟨rfl, rfl, rfl, rfl, rfl, rfl, rfl, rfl⟩
  have sc3 : t3.scanline x = t.scanline x := by
    rw [ht3]
    split
    · rw [ppu_merge_layer_scanline t _ _ x hW0 hW1 hWO hx, if_neg (by simp [h3])]
    · rfl
  rw [f3.1, f3.2.1]
  set t2 := if dispcnt_display_bg t.dispcnt 2 ≠ 0 ∧
      bgcnt_priority (t.bg_control 2) = p
    then ppu_merge_layer t3 (t3.bg_scanline 2) 2 else t3 with ht2
  have f2 : t2.dispcnt = t.dispcnt ∧ t2.bg_control = t.bg_control ∧
      t2.bg_scanline = t.bg_scanline ∧ t2.obj_scanline = t.obj_scanline ∧
      t2.vcount = t.vcount ∧ t2.back_buffer = t.back_buffer := by
    rw [ht2]
    split <;>
      exact ⟨f3.1, f3.2.1, f3.2.2.1, f3.2.2.2.1, f3.2.2.2.2.1, f3.2.2.2.2.2.1⟩
  have sc2 : t2.scanline x =
      (if dispcnt_display_bg t.dispcnt 2 ≠ 0 ∧
          bgcnt_priority (t.bg_control 2) = p ∧
          t.bg_scanline 2 x ≠ TRANSPARENT_COLOUR
        then t.bg_scanline 2 x else t.scanline x) := by
    rw [ht2]
    split
    · next hcond =>
      rw [ppu_merge_layer_scanline t3 _ _ x (f3.1 ▸ hW0) (f3.1 ▸ hW1)
        (f3.1 ▸ hWO) hx, f3.2.2.1, sc3]
      by_cases htc : t.bg_scanline 2 x ≠ TRANSPARENT_COLOUR
      · rw [if_pos htc, if_pos ⟨hcond.1, hcond.2, htc⟩]
      · rw [if_neg htc, if_neg (fun hc => htc hc.2.2)]
    · next hcond =>
      rw [sc3, if_neg (fun hc => hcond ⟨hc.1, hc.2.1⟩)]
  rw [f2.1, f2.2.1]
  set t1 := if dispcnt_display_bg t.dispcnt 1 ≠ 0 ∧
      bgcnt_priority (t.bg_control 1) = p
    then ppu_merge_layer t2 (t2.bg_scanline 1) 1 else t2 with ht1
  have f1 : t1.dispcnt = t.dispcnt ∧ t1.bg_control = t.bg_control ∧
      t1.bg_scanline = t.bg_scanline ∧ t1.obj_scanline = t.obj_scanline ∧
      t1.vcount = t.vcount ∧ t1.back_buffer = t.back_buffer := by
    rw [ht1]
    split <;> exact ⟨f2.1, f2.2.1, f2.2.2.1, f2.2.2.2.1, f2.2.2.2.2.1, f2.2.2.2.2.2⟩
  have sc1 : t1.scanline x = t2.scanline x := by
    rw [ht1]
    split
    · rw [ppu_merge_layer_scanline t2 _ _ x (f2.1 ▸ hW0) (f2.1 ▸ hW1)
        (f2.1 ▸ hWO) hx, f2.2.2.1, if_neg (by simp [h1])]
    · rfl
  rw [f1.1, f1.2.1]
  set t0 := if dispcnt_display_bg t.dispcnt 0 ≠ 0 ∧
      bgcnt_priority (t.bg_control 0) = p
    then ppu_merge_layer t1 (t1.bg_scanline 0) 0 else t1 with ht0
  have f0 : t0.dispcnt = t.dispcnt ∧ t0.bg_control = t.bg_control ∧
      t0.bg_scanline = t.bg_scanline ∧ t0.obj_scanline = t.obj_scanline ∧
      t0.vcount = t.vcount ∧ t0.back_buffer = t.back_buffer := by
    rw [ht0]
    split <;> exact ⟨f1.1, f1.2.1, f1.2.2.1, f1.2.2.2.1, f1.2.2.2.2.1, f1.2.2.2.2.2⟩
  have sc0 : t0.scanline x = t1.scanline x := by
    rw [ht0]
    split
    · rw [ppu_merge_layer_scanline t1 _ _ x (f1.1 ▸ hW0) (f1.1 ▸ hW1)
        (f1.1 ▸ hWO) hx, f1.2.2.1, if_neg (by simp [h0])]
    · rfl
  rw [f0.1]
  rw [if_neg (by simp [hobj])]
  exact ⟨f0.1, f0.2.1, f0.2.2.1, f0.2.2.2.1, f0.2.2.2.2.1, f0.2.2.2.2.2,
    by rw [sc0, sc1, sc2]⟩

set_option maxHeartbeats 1000000 in
/-- The full merge at a pixel whose non-BG2 background buffers are
transparent, with windowing and objects off and BG2 displayed with a
non-transparent pixel: the back-buffer cell of that pixel receives the BG2
buffer value. -/
theorem ppu_merge_layers_pixel (t : PPUScanState) (x : Nat)
    (hx : x < DISPLAY_WIDTH)
    (hW0 : dispcnt_display_window t.dispcnt 0 = 0)
    (hW1 : dispcnt_display_window t.dispcnt 1 = 0)
    (hWO : dispcnt_display_window t.dispcnt 2 = 0)
    (hobj : dispcnt_display_obj t.dispcnt = 0)
    (hbg2 : dispcnt_display_bg t.dispcnt 2 = 1)
    (h0 : t.bg_scanline 0 x = TRANSPARENT_COLOUR)
    (h1 : t.bg_scanline 1 x = TRANSPARENT_COLOUR)
    (h3 : t.bg_scanline 3 x = TRANSPARENT_COLOUR)
    (hV : t.bg_scanline 2 x ≠ TRANSPARENT_COLOUR) :
    (ppu_merge_layers t).back_buffer (DISPLAY_WIDTH * t.vcount + x) =
      t.bg_scanline 2 x := by
  simp only [ppu_merge_layers]
  set sa := ppu_merge_priority t 3 with hsadef
  obtain ⟨Da, Ba, Ga, Oa, Va, Ka, Sa⟩ :=
    ppu_merge_priority_step t 3 x hx hW0 hW1 hWO hobj h0 h1 h3
  rw [← hsadef] at Da Ba Ga Oa Va Ka Sa
  set sb := ppu_merge_priority sa 2 with hsbdef
  obtain ⟨Db, Bb, Gb, Ob, Vb, Kb, Sb⟩ :=
    ppu_merge_priority_step sa 2 x hx (by rw [Da]; exact hW0)
      (by rw [Da]; exact hW1) (by rw [Da]; exact hWO) (by rw [Da]; exact hobj)
      (by rw [Ga]; exact h0) (by rw [Ga]; exact h1) (by rw [Ga]; exact h3)
  rw [← hsbdef] at Db Bb Gb Ob Vb Kb Sb
  rw [Da, Ba, Ga] at Sb
  rw [Da] at Db
  rw [Ba] at Bb
  rw [Ga] at Gb
  rw [Va] at Vb
  set sc := ppu_merge_priority sb 1 with hscdef
  obtain ⟨Dc, Bc, Gc, Oc, Vc, Kc, Sc⟩ :=
    ppu_merge_priority_step sb 1 x hx (by rw [Db]; exact hW0)
      (by rw [Db]; exact hW1) (by rw [Db]; exact hWO) (by rw [Db]; exact hobj)
      (by rw [Gb]; exact h0) (by rw [Gb]; exact h1) (by rw [Gb]; exact h3)
  rw [← hscdef] at Dc Bc Gc Oc Vc Kc Sc
  rw [Db, Bb, Gb] at Sc
  rw [Db] at Dc
  rw [Bb] at Bc
  rw [Gb] at Gc
  rw [Vb] at Vc
  set sd := ppu_merge_priority sc 0 with hsddef
  obtain ⟨Dd, Bd, Gd, Od, Vd, Kd, Sd⟩ :=
    ppu_merge_priority_step sc 0 x hx (by rw [Dc]; exact hW0)
      (by rw [Dc]; exact hW1) (by rw [Dc]; exact hWO) (by rw [Dc]; exact hobj)
      (by rw [Gc]; exact h0) (by rw [Gc]; exact h1) (by rw [Gc]; exact h3)
  rw [← hsddef] at Dd Bd Gd Od Vd Kd Sd
  rw [Dc, Bc, Gc] at Sd
  rw [Vc] at Vd
  show (if DISPLAY_WIDTH * sd.vcount ≤ DISPLAY_WIDTH * t.vcount + x ∧
      DISPLAY_WIDTH * t.vcount + x < DISPLAY_WIDTH * sd.vcount + DISPLAY_WIDTH
    then sd.scanline (DISPLAY_WIDTH * t.vcount + x - DISPLAY_WIDTH * sd.vcount)
    else sd.back_buffer (DISPLAY_WIDTH * t.vcount + x)) = t.bg_scanline 2 x
  rw [Vd]
  rw [if_pos ⟨Nat.le_add_right _ _, by omega⟩]
  have hidx : DISPLAY_WIDTH * t.vcount + x - DISPLAY_WIDTH * t.vcount = x := by
    omega
  rw [hidx]
  have hd2 : dispcnt_display_bg t.dispcnt 2 ≠ 0 := by omega
  have hple := bgcnt_priority_le (t.bg_control 2)
  set p2 := bgcnt_priority (t.bg_control 2) with hp2def
  interval_cases p2
  · rw [Sd, if_pos ⟨hd2, rfl, hV⟩]
  · rw [Sd, if_neg (fun h => absurd h.2.1 (by decide)), Sc,
      if_pos ⟨hd2, rfl, hV⟩]
  · rw [Sd, if_neg (fun h => absurd h.2.1 (by decide)), Sc,
      if_neg (fun h => absurd h.2.1 (by decide)), Sb,
      if_pos ⟨hd2, rfl, hV⟩]
  · rw [Sd, if_neg (fun h => absurd h.2.1 (by decide)), Sc,
      if_neg (fun h => absurd h.2.1 (by decide)), Sb,
      if_neg (fun h => absurd h.2.1 (by decide)), Sa,
      if_pos ⟨hd2, rfl, hV⟩]

/-- The MODE_3 (non-paletted, full-size) bitmap pass with BG2 displayed,
written out as the record it produces. -/
theorem ppu_render_background_bitmap_raw (u : PPUScanState)
    (hd : ¬ dispcnt_display_bg u.dispcnt 2 = 0) :
    ppu_render_background_bitmap u false false =
      { u with bg_scanline := fun bg x =>
          if bg = 2 ∧ x < DISPLAY_WIDTH then
            read_16_vram u.vm ((DISPLAY_WIDTH * u.vcount + x) * COLOUR_SIZE)
          else u.bg_scanline bg x } := by
  simp only [ppu_render_background_bitmap]
  rw [if_neg hd]
  rfl

set_option maxHeartbeats 1000000 in
/-- Claim C8 (amended): in MODE_3 with BG2 displayed, force blank off, no
windowing and no objects displayed, writing a 16-bit value V with bit 15
clear at VRAM offset 2·(240·vcount + x) and rendering the scanline stores V
itself (equal to V masked to 15 bits, since bit 15 is clear) in the back
buffer at index 240·vcount + x.  Without the bit-15 hypothesis the claim
fails: the bitmap renderer stores the raw unmasked halfword (see the
counterexample). -/
theorem bitmap_mode3_roundtrip (s : PPUScanState) (V x : Nat)
    (hmode : video_mode s.dispcnt = 3)
    (hbg2 : dispcnt_display_bg s.dispcnt 2 = 1)
    (hfb : dispcnt_force_blank s.dispcnt = 0)
    (hW0 : dispcnt_display_window s.dispcnt 0 = 0)
    (hW1 : dispcnt_display_window s.dispcnt 1 = 0)
    (hWO : dispcnt_display_window s.dispcnt 2 = 0)
    (hobj : dispcnt_display_obj s.dispcnt = 0)
    (hx : x < DISPLAY_WIDTH)
    (hy : s.vcount < DISPLAY_HEIGHT)
    (hv : V < 65536)
    (hbit : get_bit V 15 = 0) :
    ∃ s2, ppu_render_scanline
        { s with vm := (write_16_vram s.vm
            ((DISPLAY_WIDTH * s.vcount + x) * COLOUR_SIZE) V) } = some s2 ∧
      s2.back_buffer (DISPLAY_WIDTH * s.vcount + x) = V := by
  set sW : PPUScanState := { s with vm := (write_16_vram s.vm
      ((DISPLAY_WIDTH * s.vcount + x) * COLOUR_SIZE) V) } with hsW
  have hd2 : ¬ dispcnt_display_bg
      (ppu_calc_window_masks (ppu_init_layers sW)).dispcnt 2 = 0 := by
    have h : dispcnt_display_bg
        (ppu_calc_window_masks (ppu_init_layers sW)).dispcnt 2 = 1 := hbg2
    omega
  have hT := ppu_render_background_bitmap_raw
    (ppu_calc_window_masks (ppu_init_layers sW)) hd2
  have hpipe : ppu_render_scanline sW = some (ppu_merge_layers
      ({ ppu_calc_window_masks (ppu_init_layers sW) with
        bg_scanline := fun bg x' =>
          if bg = 2 ∧ x' < DISPLAY_WIDTH then
            read_16_vram (ppu_calc_window_masks (ppu_init_layers sW)).vm
              ((DISPLAY_WIDTH *
                (ppu_calc_window_masks (ppu_init_layers sW)).vcount + x') *
                COLOUR_SIZE)
          else (ppu_calc_window_masks (ppu_init_layers sW)).bg_scanline bg x'
      } : PPUScanState)) := by
    simp only [ppu_render_scanline]
    rw [if_pos (show dispcnt_force_blank
      (ppu_calc_window_masks (ppu_init_layers sW)).dispcnt = 0 from hfb)]
    simp only [ppu_render_backgrounds]
    have hm3 : video_mode
        (ppu_calc_window_masks (ppu_init_layers sW)).dispcnt = 3 := hmode
    rw [if_neg (by omega), if_neg (by omega), if_neg (by omega), if_pos hm3]
    rw [hT]
    simp only [ppu_render_objects]
    rw [if_pos (show dispcnt_display_obj
      ({ ppu_calc_window_masks (ppu_init_layers sW) with
          bg_scanline := fun bg x' =>
            if bg = 2 ∧ x' < DISPLAY_WIDTH then
              read_16_vram (ppu_calc_window_masks (ppu_init_layers sW)).vm
                ((DISPLAY_WIDTH *
                  (ppu_calc_window_masks (ppu_init_layers sW)).vcount + x') *
                  COLOUR_SIZE)
            else (ppu_calc_window_masks (ppu_init_layers sW)).bg_scanline bg x'
        } : PPUScanState).dispcnt = 0 from hobj)]
  refine ⟨_, hpipe, ?_⟩
  · -- the rendered pixel survives the merge
    have hbgTC : ∀ bg, (ppu_calc_window_masks (ppu_init_layers sW)).bg_scanline
        bg x = TRANSPARENT_COLOUR := by
      intro bg
      have e : (ppu_calc_window_masks (ppu_init_layers sW)).bg_scanline bg x =
          if x < DISPLAY_WIDTH then TRANSPARENT_COLOUR else sW.bg_scanline bg x :=
        rfl
      rw [e, if_pos hx]
    have hval : (({ ppu_calc_window_masks (ppu_init_layers sW) with
        bg_scanline := fun bg x' =>
          if bg = 2 ∧ x' < DISPLAY_WIDTH then
            read_16_vram (ppu_calc_window_masks (ppu_init_layers sW)).vm
              ((DISPLAY_WIDTH *
                (ppu_calc_window_masks (ppu_init_layers sW)).vcount + x') *
                COLOUR_SIZE)
          else (ppu_calc_window_masks (ppu_init_layers sW)).bg_scanline bg x'
      } : PPUScanState)).bg_scanline 2 x = V := by
      have e : (({ ppu_calc_window_masks (ppu_init_layers sW) with
          bg_scanline := fun bg x' =>
            if bg = 2 ∧ x' < DISPLAY_WIDTH then
              read_16_vram (ppu_calc_window_masks (ppu_init_layers sW)).vm
                ((DISPLAY_WIDTH *
                  (ppu_calc_window_masks (ppu_init_layers sW)).vcount + x') *
                  COLOUR_SIZE)
            else (ppu_calc_window_masks (ppu_init_layers sW)).bg_scanline bg x'
        } : PPUScanState)).bg_scanline 2 x =
          if 2 = 2 ∧ x < DISPLAY_WIDTH then
            read_16_vram (ppu_calc_window_masks (ppu_init_layers sW)).vm
              ((DISPLAY_WIDTH *
                (ppu_calc_window_masks (ppu_init_layers sW)).vcount + x) *
                COLOUR_SIZE)
          else (ppu_calc_window_masks (ppu_init_layers sW)).bg_scanline 2 x := rfl
      rw [e, if_pos ⟨rfl, hx⟩]
      show read_16_vram (write_16_vram s.vm
          ((DISPLAY_WIDTH * s.vcount + x) * COLOUR_SIZE) V)
        ((DISPLAY_WIDTH * s.vcount + x) * COLOUR_SIZE) = V
      exact write_read_16_vram s.vm _ V hv
    have hVne : V ≠ TRANSPARENT_COLOUR := by
      intro h
      rw [h] at hbit
      exact absurd hbit (by decide)
    have hmerge := ppu_merge_layers_pixel
      ({ ppu_calc_window_masks (ppu_init_layers sW) with
        bg_scanline := fun bg x' =>
          if bg = 2 ∧ x' < DISPLAY_WIDTH then
            read_16_vram (ppu_calc_window_masks (ppu_init_layers sW)).vm
              ((DISPLAY_WIDTH *
                (ppu_calc_window_masks (ppu_init_layers sW)).vcount + x') *
                COLOUR_SIZE)
          else (ppu_calc_window_masks (ppu_init_layers sW)).bg_scanline bg x'
      } : PPUScanState) x hx hW0 hW1 hWO hobj hbg2
      (hbgTC 0) (hbgTC 1) (hbgTC 3)
      (by rw [hval]; exact hVne)
    rw [hval] at hmerge
    exact hmerge

/-- A concrete PPU state for claim C8: MODE_3, BG2 displayed (DISPCNT
0x0403), everything else zero. -/
def ppuMode3State : PPUScanState :=
  { dispcnt := 0x0403, bg_control := fun _ => 0, bg_offset_h := fun _ => 0,
    bg_offset_v := fun _ => 0, vcount := 0, window_h_min := fun _ => 0,
    window_h_max := fun _ => 0, window_v_min := fun _ => 0,
    window_v_max := fun _ => 0, window_control := fun _ => 0,
    window_mask := fun _ _ => 0,
    vm := ⟨fun _ => 0, fun _ => 0, fun _ => 0, 0x0403⟩,
    bg_scanline := fun _ _ => 0, obj_scanline := fun _ _ => 0,
    scanline := fun _ => 0, back_buffer := fun _ => 0 }

set_option maxRecDepth 8000 in
/-- Counterexample to claim C8 as stated: writing V = 0x8001 (bit 15 set)
at VRAM offset 0 for pixel (0, 0) in MODE_3 and rendering the scanline
stores the raw value 0x8001 in the back buffer, not V masked to 15 bits
(0x8001 & 0x7FFF = 1): the bitmap renderer never masks the halfword it
reads from VRAM. -/
theorem bitmap_mode3_unmasked_counterexample :
    ∃ s2, ppu_render_scanline
        { ppuMode3State with vm := write_16_vram ppuMode3State.vm 0 0x8001 } =
        some s2 ∧
      s2.back_buffer 0 = 0x8001 ∧ pyAnd 0x8001 0x7FFF = 1 ∧ (0x8001 : Nat) ≠ 1 :=
  ⟨_, rfl, by decide, by decide, by decide⟩

set_option maxRecDepth 8000 in
/-- Witness for C8 at a concrete input: V = 0x1234 (bit 15 clear) at pixel
(5, 0) reads back exactly. -/
theorem bitmap_mode3_roundtrip_witness :
    ∃ s2, ppu_render_scanline
        { ppuMode3State with vm := (write_16_vram ppuMode3State.vm
            ((DISPLAY_WIDTH * ppuMode3State.vcount + 5) * COLOUR_SIZE) 0x1234) } =
        some s2 ∧
      s2.back_buffer (DISPLAY_WIDTH * ppuMode3State.vcount + 5) = 0x1234 :=
  bitmap_mode3_roundtrip ppuMode3State 0x1234 5 (by decide) (by decide)
    (by decide) (by decide) (by decide) (by decide) (by decide) (by decide)
    (by decide) (by decide) (by decide)

/-! ## cpu/arm/bdt.py: block data transfer (LDM/STM)

The CPU state for this instruction is the register file (the Registers
embedding above, including banking and switch_mode), a pure memory-read
oracle, the two pipeline slots and the cycle counter.  The memory accesses
performed by the transfer loop are recorded in transfer_log as
(register, address) pairs, and the base write-back assignments in
writeback_log as (base register, value) pairs; access-type annotations
(sequential / non-sequential), which only affect timing, are not recorded.
The Python loop `for reg in range(16)` is the walk of the literal list
[0, ..., 15]. -/

/-- cpu.regs[reg] = value. -/
def regs_set (r : Registers) (i v : Nat) : Registers :=
  { r with regs := Function.update r.regs i v }

/-- Embeds utils.add_int32_to_uint32: (op_uint + op_int) % 0x100000000. -/
def add_int32_to_uint32 (op_uint : Nat) (op_int : Int) : Nat :=
  (((op_uint : Int) + op_int) % (2 ^ 32 : Int)).toNat

/-- The CPU projection used by arm_block_data_transfer. -/
structure BDTCpu where
  regs : Registers
  read32 : Nat → Nat
  read16 : Nat → Nat
  pipeline0 : Nat
  pipeline1 : Nat
  next_fetch_nonseq : Bool
  cycles : Nat
  transfer_log : List (Nat × Nat)
  writeback_log : List (Nat × Nat)

/-- Embeds CPU.advance_pc_arm (ARM_PC_INCREMENT = 4). -/
def advance_pc_arm (c : BDTCpu) : BDTCpu :=
  { c with regs := regs_set c.regs 15 (pyAnd (c.regs.regs 15 + 4) 0xFFFFFFFF) }

/-- Embeds CPU.flush_pipeline: align PC, refill both pipeline slots,
advancing PC past each. -/
def flush_pipeline (c : BDTCpu) : BDTCpu :=
  if get_bit c.regs.cpsr 5 = 0 then
    let pc0 := pyLdiff (c.regs.regs 15) 0b11
    let pc1 := pyAnd (pc0 + 4) 0xFFFFFFFF
    let pc2 := pyAnd (pc1 + 4) 0xFFFFFFFF
    { c with regs := regs_set c.regs 15 pc2,
             pipeline0 := c.read32 pc0,
             pipeline1 := c.read32 pc1,
             next_fetch_nonseq := false }
  else
    let pc0 := pyLdiff (c.regs.regs 15) 0b1
    let pc1 := pyAnd (pc0 + 2) 0xFFFFFFFF
    let pc2 := pyAnd (pc1 + 2) 0xFFFFFFFF
    { c with regs := regs_set c.regs 15 pc2,
             pipeline0 := c.read16 pc0,
             pipeline1 := c.read16 pc1,
             next_fetch_nonseq := false }

/-- reg_list_count = sum(get_bit(reg_list, reg) for reg in range(16)). -/
def bit_count_16 (reg_list : Nat) : Nat :=
  (List.range 16).foldl (fun acc r => acc + get_bit reg_list r) 0

/-- One taken iteration of the transfer loop of arm_block_data_transfer:
pre-increment, write-back before a load or after a store on the first
transfer, and post-increment. -/
def bdt_transfer_step (load wb pre : Bool) (base_reg final_address reg : Nat)
    (st : BDTCpu × Nat × Bool) : BDTCpu × Nat × Bool :=
  let c := st.1
  let base := st.2.1
  let first := st.2.2
  let base1 := if pre then pyAnd (base + 4) 0xFFFFFFFF else base
  if load then
    let c1 := if first ∧ wb then
        { c with
          regs := regs_set c.regs base_reg final_address
          writeback_log := c.writeback_log ++ [(base_reg, final_address)] }
      else c
    let first1 := if first ∧ wb then false else first
    let c2 := { c1 with
      regs := regs_set c1.regs reg (c1.read32 base1)
      transfer_log := c1.transfer_log ++ [(reg, base1)] }
    let base2 := if pre then base1 else pyAnd (base1 + 4) 0xFFFFFFFF
    (c2, base2, first1)
  else
    let c1 := { c with transfer_log := c.transfer_log ++ [(reg, base1)] }
    let c2 := if first ∧ wb then
        { c1 with
          regs := regs_set c1.regs base_reg final_address
          writeback_log := c1.writeback_log ++ [(base_reg, final_address)] }
      else c1
    let first1 := if first ∧ wb then false else first
    let base2 := if pre then base1 else pyAnd (base1 + 4) 0xFFFFFFFF
    (c2, base2, first1)

/-- The transfer loop over the registers in ascending order. -/
def bdt_loop (load wb pre : Bool) (base_reg final_address reg_list : Nat) :
    List Nat → BDTCpu × Nat × Bool → BDTCpu × Nat × Bool
  | [], st => st
  | r :: rest, st =>
    bdt_loop load wb pre base_reg final_address reg_list rest
      (if get_bit reg_list r ≠ 0 then
        bdt_transfer_step load wb pre base_reg final_address r st
      else st)

/-- Embeds arm_block_data_transfer.  PSR mode lookups are the partial enum
constructor, so an invalid mode field is none (a Python ValueError). -/
def arm_block_data_transfer (c : BDTCpu) (instr : Nat) : Option BDTCpu :=
  let pre_post_bit := get_bit instr 24
  let up_down_bit := get_bit instr 23
  let psr_and_force_user_bit := get_bit instr 22
  let write_back_bit := get_bit instr 21
  let load_store_bit := get_bit instr 20
  let base_reg := get_bits instr 16 19
  let reg_list0 := get_bits instr 0 15
  let count0 := bit_count_16 reg_list0
  let reg_list := if count0 = 0 then set_bit reg_list0 15 1 else reg_list0
  let reg_list_count := if count0 = 0 then 16 else count0
  let pc_in_reg_list := get_bit reg_list 15
  let base0 := c.regs.regs base_reg
  let final_address :=
    if up_down_bit ≠ 0 then add_int32_to_uint32 base0 (reg_list_count * 4)
    else add_int32_to_uint32 base0 (-(reg_list_count * 4 : Int))
  let base1 := if up_down_bit ≠ 0 then base0 else final_address
  let pre := if up_down_bit ≠ 0 then pre_post_bit ≠ 0 else ¬ pre_post_bit ≠ 0
  match psr_mode c.regs.cpsr with
  | none => none
  | some original_mode =>
    let c1 := if psr_and_force_user_bit ≠ 0 ∧
        ¬ (pc_in_reg_list ≠ 0 ∧ load_store_bit ≠ 0) then
        { c with regs := switch_mode c.regs CPUMode.USER }
      else c
    let c2 := { advance_pc_arm c1 with next_fetch_nonseq := true }
    let st := bdt_loop (load_store_bit ≠ 0) (write_back_bit ≠ 0) pre base_reg
      final_address reg_list [0, 1, 2, 3, 4, 5, 6, 7, 8, 9, 10, 11, 12, 13, 14, 15]
      (c2, base1, true)
    let c4 := st.1
    if pc_in_reg_list ≠ 0 ∧ load_store_bit ≠ 0 then
      if psr_and_force_user_bit ≠ 0 then
        match psr_mode c4.regs.spsr with
        | none => none
        | some spsr_mode =>
          let spsr_reg := c4.regs.spsr
          let r1 := switch_mode c4.regs spsr_mode
          let c5 := { c4 with regs := { r1 with cpsr := spsr_reg } }
          let c6 := flush_pipeline c5
          some (if load_store_bit ≠ 0 then { c6 with cycles := c6.cycles + 1 } else c6)
      else
        let c6 := flush_pipeline c4
        some (if load_store_bit ≠ 0 then { c6 with cycles := c6.cycles + 1 } else c6)
    else
      let c5 := if psr_and_force_user_bit ≠ 0 then
          { c4 with regs := switch_mode c4.regs original_mode }
        else c4
      some (if load_store_bit ≠ 0 then { c5 with cycles := c5.cycles + 1 } else c5)

theorem flush_pipeline_logs (c : BDTCpu) :
    (flush_pipeline c).transfer_log = c.transfer_log ∧
    (flush_pipeline c).writeback_log = c.writeback_log := by
  unfold flush_pipeline
  split <;> exact ⟨rfl, rfl⟩

theorem flush_pipeline_transfer_log (c : BDTCpu) :
    (flush_pipeline c).transfer_log = c.transfer_log :=
  (flush_pipeline_logs c).1

theorem flush_pipeline_writeback_log (c : BDTCpu) :
    (flush_pipeline c).writeback_log = c.writeback_log :=
  (flush_pipeline_logs c).2

set_option maxHeartbeats 2000000 in
/-- Claim C9: an LDM or STM whose register list is empty transfers exactly
one register, namely PC (r15), and when write-back is requested the value
written back to the base register is the original base plus 0x40 modulo
2^32 when the U bit is set and minus 0x40 otherwise; without write-back the
write-back log is untouched.  The PSR mode fields are assumed valid (the
partial mode lookup would otherwise raise). -/
theorem bdt_empty_rlist (c : BDTCpu) (instr : Nat) (m sm : CPUMode)
    (hempty : get_bits instr 0 15 = 0)
    (hcm : psr_mode c.regs.cpsr = some m)
    (hsm : psr_mode c.regs.spsr = some sm) :
    ∃ c', arm_block_data_transfer c instr = some c' ∧
      c'.transfer_log.map Prod.fst = c.transfer_log.map Prod.fst ++ [15] ∧
      (get_bit instr 21 ≠ 0 →
        c'.writeback_log = c.writeback_log ++
          [(get_bits instr 16 19,
            if get_bit instr 23 ≠ 0 then
              add_int32_to_uint32 (c.regs.regs (get_bits instr 16 19)) 64
            else
              add_int32_to_uint32 (c.regs.regs (get_bits instr 16 19)) (-64))]) ∧
      (get_bit instr 21 = 0 → c'.writeback_log = c.writeback_log) := by
  simp only [arm_block_data_transfer]
  rw [hempty]
  rw [show bit_count_16 0 = 0 from by decide]
  rw [if_pos (rfl : (0 : Nat) = 0)]
  rw [if_pos (rfl : (0 : Nat) = 0)]
  rw [show set_bit 0 15 1 = 32768 from by decide]
  rw [show get_bit 32768 15 = 1 from by decide]
  rw [hcm]
  rw [show ((16 : Nat) : Int) * 4 = (64 : Int) from by norm_num]
  rw [bdt_loop, if_neg (show ¬ get_bit 32768 0 ≠ 0 from by decide)]
  rw [bdt_loop, if_neg (show ¬ get_bit 32768 1 ≠ 0 from by decide)]
  rw [bdt_loop, if_neg (show ¬ get_bit 32768 2 ≠ 0 from by decide)]
  rw [bdt_loop, if_neg (show ¬ get_bit 32768 3 ≠ 0 from by decide)]
  rw [bdt_loop, if_neg (show ¬ get_bit 32768 4 ≠ 0 from by decide)]
  rw [bdt_loop, if_neg (show ¬ get_bit 32768 5 ≠ 0 from by decide)]
  rw [bdt_loop, if_neg (show ¬ get_bit 32768 6 ≠ 0 from by decide)]
  rw [bdt_loop, if_neg (show ¬ get_bit 32768 7 ≠ 0 from by decide)]
  rw [bdt_loop, if_neg (show ¬ get_bit 32768 8 ≠ 0 from by decide)]
  rw [bdt_loop, if_neg (show ¬ get_bit 32768 9 ≠ 0 from by decide)]
  rw [bdt_loop, if_neg (show ¬ get_bit 32768 10 ≠ 0 from by decide)]
  rw [bdt_loop, if_neg (show ¬ get_bit 32768 11 ≠ 0 from by decide)]
  rw [bdt_loop, if_neg (show ¬ get_bit 32768 12 ≠ 0 from by decide)]
  rw [bdt_loop, if_neg (show ¬ get_bit 32768 13 ≠ 0 from by decide)]
  rw [bdt_loop, if_neg (show ¬ get_bit 32768 14 ≠ 0 from by decide)]
  rw [bdt_loop, if_pos (show get_bit 32768 15 ≠ 0 from by decide)]
  rw [bdt_loop]
  by_cases hload : get_bit instr 20 = 0 <;> by_cases hwb : get_bit instr 21 = 0 <;>
    by_cases hs : get_bit instr 22 = 0
  all_goals simp only [bdt_transfer_step]
  all_goals simp [hload, hwb, hs, hcm, hsm, advance_pc_arm, regs_set,
    flush_pipeline_transfer_log, flush_pipeline_writeback_log]

/-- A concrete CPU for the C9 witness: all registers zero, CPSR mode SWI,
SPSR mode USER, zero memory. -/
def bdtWitnessCpu : BDTCpu :=
  { regs := { regs := fun _ => 0, cpsr := 0b10011, spsr := 0b10000,
              banked_old_gpr := fun _ => 0, banked_fiq_gpr := fun _ => 0,
              banked_sp := fun _ => 0, banked_lr := fun _ => 0,
              banked_spsr := fun _ => 0 },
    read32 := fun _ => 0, read16 := fun _ => 0, pipeline0 := 0, pipeline1 := 0,
    next_fetch_nonseq := false, cycles := 0, transfer_log := [],
    writeback_log := [] }

/-- Witness for C9: STM with empty register list, U and W set, base r1
(instr 0x00A10000). -/
theorem bdt_empty_rlist_witness :
    ∃ c', arm_block_data_transfer bdtWitnessCpu 0x00A10000 = some c' ∧
      c'.transfer_log.map Prod.fst =
        bdtWitnessCpu.transfer_log.map Prod.fst ++ [15] ∧
      (get_bit 0x00A10000 21 ≠ 0 →
        c'.writeback_log = bdtWitnessCpu.writeback_log ++
          [(get_bits 0x00A10000 16 19,
            if get_bit 0x00A10000 23 ≠ 0 then
              add_int32_to_uint32
                (bdtWitnessCpu.regs.regs (get_bits 0x00A10000 16 19)) 64
            else
              add_int32_to_uint32
                (bdtWitnessCpu.regs.regs (get_bits 0x00A10000 16 19)) (-64))]) ∧
      (get_bit 0x00A10000 21 = 0 →
        c'.writeback_log = bdtWitnessCpu.writeback_log) :=
  bdt_empty_rlist bdtWitnessCpu 0x00A10000 CPUMode.SWI CPUMode.USER
    (by decide) (by decide) (by decide)

/-! ## memory/dma.py: DMAChannel.transfer

A second view of the DMA channel, scoped to transfer(): the internal
latched addresses are Python ints (they can step negative), memory is a
pure non-aliasing read oracle plus a write log, the raised ValueError of an
impossible adjustment encoding is the false flag of the result (the state
then carries the mutations made before the raise, as the Python object
would), and interrupt signals and rescheduled activate events are logged.
Interrupt.DMA_0..DMA_3 come from interrupt_controller.py (bits 8..11). -/

/-- DMAChannel.INTERRUPT[channel_id]. -/
def dma_interrupt_bit (channel_id : Nat) : Nat :=
  if channel_id = 0 then 0x100
  else if channel_id = 1 then 0x200
  else if channel_id = 2 then 0x400
  else 0x800

/-- The DMAChannel fields transfer() touches, with its memory coupling. -/
structure DMAChannelXfer where
  channel_id : Nat
  fifo : Bool
  pending : Bool
  control_reg : Nat
  count : Nat
  src : Nat
  dst : Nat
  internal_src : Int
  internal_dst : Int
  internal_count : Nat
  read16 : Int → Nat
  read32 : Int → Nat
  write_log : List (Int × Nat)
  irq_log : List Nat
  event : Option Nat
  next_event_id : Nat
  schedule_log : List EventTrigger

/-- The transfer loop of DMAChannel.transfer: internal_count iterations of
read source, write destination, step both internal addresses. -/
def dma_transfer_loop (word : Bool) (src_step dst_step : Int) :
    Nat → DMAChannelXfer → DMAChannelXfer
  | 0, ch => ch
  | n + 1, ch =>
    let value := if word then ch.read32 ch.internal_src else ch.read16 ch.internal_src
    dma_transfer_loop word src_step dst_step n
      { ch with
        write_log := ch.write_log ++ [(ch.internal_dst, value)]
        internal_src := ch.internal_src + src_step
        internal_dst := ch.internal_dst + dst_step }

/-- Embeds DMAChannel.transfer.  The Bool is false when the source reaches
one of its `raise ValueError` arms (src adjustment 3, or an adjustment
outside 0..3 — the latter cannot occur for a 2-bit field). -/
def dma_transfer (ch : DMAChannelXfer) : Bool × DMAChannelXfer :=
  if ¬ ch.pending then (true, ch)
  else
    let word := get_bit ch.control_reg 10 = 1
    let transfer_size_bytes : Int := if word then 4 else 2
    let align : Int := if word then 4 else 2
    let ch0 := { ch with
      internal_src := align * ch.internal_src.fdiv align
      internal_dst := align * ch.internal_dst.fdiv align }
    let src_adj := dma_ctrl_src_adjustment ch.control_reg
    match (if src_adj = 0 then some transfer_size_bytes
      else if src_adj = 1 then some (-transfer_size_bytes)
      else if src_adj = 2 then some (0 : Int)
      else none) with
    | none => (false, ch0)
    | some src_step =>
      let dst_adj := dma_ctrl_dst_adjustment ch.control_reg
      match (if ch.fifo then some (0 : Int)
        else if dst_adj = 0 then some transfer_size_bytes
        else if dst_adj = 1 then some (-transfer_size_bytes)
        else if dst_adj = 2 then some (0 : Int)
        else if dst_adj = 3 then some transfer_size_bytes
        else none) with
      | none => (false, ch0)
      | some dst_step =>
        let ch2 := dma_transfer_loop word src_step dst_step ch0.internal_count ch0
        let ch3 := if dma_ctrl_irq_when_done ch.control_reg ≠ 0 then
            { ch2 with irq_log := ch2.irq_log ++ [dma_interrupt_bit ch.channel_id] }
          else ch2
        let ch4 := { ch3 with pending := false }
        if dma_ctrl_repeat ch.control_reg ≠ 0 then
          let ch5 := if dst_adj = 3 then { ch4 with internal_dst := (ch4.dst : Int) }
            else ch4
          if dma_ctrl_start_timing ch.control_reg = 1 then
            (true, { ch5 with
              event := some ch5.next_event_id
              next_event_id := ch5.next_event_id + 1
              schedule_log := ch5.schedule_log ++ [EventTrigger.VBLANK] })
          else if dma_ctrl_start_timing ch.control_reg = 2 then
            (true, { ch5 with
              event := some ch5.next_event_id
              next_event_id := ch5.next_event_id + 1
              schedule_log := ch5.schedule_log ++ [EventTrigger.HBLANK] })
          else (true, ch5)
        else
          (true, { ch4 with control_reg := set_bit ch4.control_reg 15 0 })

theorem dma_transfer_loop_frame (word : Bool) (src_step dst_step : Int)
    (n : Nat) (ch : DMAChannelXfer) :
    (dma_transfer_loop word src_step dst_step n ch).src = ch.src ∧
    (dma_transfer_loop word src_step dst_step n ch).dst = ch.dst ∧
    (dma_transfer_loop word src_step dst_step n ch).count = ch.count ∧
    (dma_transfer_loop word src_step dst_step n ch).fifo = ch.fifo ∧
    (dma_transfer_loop word src_step dst_step n ch).channel_id = ch.channel_id ∧
    (dma_transfer_loop word src_step dst_step n ch).control_reg = ch.control_reg ∧
    (dma_transfer_loop word src_step dst_step n ch).pending = ch.pending := by
  induction n generalizing ch with
  | zero => exact ⟨rfl, rfl, rfl, rfl, rfl, rfl, rfl⟩
  | succ k ih =>
    simp only [dma_transfer_loop]
    exact ih _

theorem ldiff_ldiff_self (a b : Nat) :
    Nat.ldiff (Nat.ldiff a b) b = Nat.ldiff a b := by
  apply Nat.eq_of_testBit_eq
  intro i
  cases h : Nat.testBit b i <;> simp [Nat.testBit_ldiff, h]

theorem pyLdiff_set_bit_15 (reg : Nat) :
    pyLdiff (set_bit reg 15 0) 0x8000 = pyLdiff reg 0x8000 := by
  unfold set_bit
  rw [pyOr_eq, pyLdiff_eq, pyLdiff_eq, pyLdiff_eq]
  have h0 : (0 : Nat) <<< 15 = 0 := by decide
  have h1 : (1 : Nat) <<< 15 = 32768 := by decide
  rw [h0, h1, Nat.or_zero]
  exact ldiff_ldiff_self reg 32768

theorem dma_transfer_loop_src (w : Bool) (s d : Int) (n : Nat) (ch : DMAChannelXfer) :
    (dma_transfer_loop w s d n ch).src = ch.src :=
  (dma_transfer_loop_frame w s d n ch).1

theorem dma_transfer_loop_dst (w : Bool) (s d : Int) (n : Nat) (ch : DMAChannelXfer) :
    (dma_transfer_loop w s d n ch).dst = ch.dst :=
  (dma_transfer_loop_frame w s d n ch).2.1

theorem dma_transfer_loop_count (w : Bool) (s d : Int) (n : Nat)
    (ch : DMAChannelXfer) : (dma_transfer_loop w s d n ch).count = ch.count :=
  (dma_transfer_loop_frame w s d n ch).2.2.1

theorem dma_transfer_loop_fifo (w : Bool) (s d : Int) (n : Nat)
    (ch : DMAChannelXfer) : (dma_transfer_loop w s d n ch).fifo = ch.fifo :=
  (dma_transfer_loop_frame w s d n ch).2.2.2.1

theorem dma_transfer_loop_channel_id (w : Bool) (s d : Int) (n : Nat)
    (ch : DMAChannelXfer) :
    (dma_transfer_loop w s d n ch).channel_id = ch.channel_id :=
  (dma_transfer_loop_frame w s d n ch).2.2.2.2.1

theorem dma_transfer_loop_control_reg (w : Bool) (s d : Int) (n : Nat)
    (ch : DMAChannelXfer) :
    (dma_transfer_loop w s d n ch).control_reg = ch.control_reg :=
  (dma_transfer_loop_frame w s d n ch).2.2.2.2.2.1

set_option maxHeartbeats 4000000 in
/-- Claim C10: transfer() never changes the programmed SAD/DAD/CNT_L values
(the src, dst and count fields the register reads return), nor the fifo
flag or channel id; of the control register only the enable bit (bit 15)
may change (the register with bit 15 removed is invariant); and a
non-pending channel is left entirely unchanged.  The transfer advances only
the internal latched copies, the logs, and the pending flag. -/
theorem dma_transfer_frame (ch : DMAChannelXfer) :
    (dma_transfer ch).2.src = ch.src ∧
    (dma_transfer ch).2.dst = ch.dst ∧
    (dma_transfer ch).2.count = ch.count ∧
    (dma_transfer ch).2.fifo = ch.fifo ∧
    (dma_transfer ch).2.channel_id = ch.channel_id ∧
    pyLdiff (dma_transfer ch).2.control_reg 0x8000 =
      pyLdiff ch.control_reg 0x8000 ∧
    (¬ ch.pending → dma_transfer ch = (true, ch)) := by
  by_cases hp : ch.pending
  · simp only [dma_transfer]
    rw [if_neg (by simp [hp])]
    repeat' split
    all_goals simp [hp, dma_transfer_loop_src, dma_transfer_loop_dst,
      dma_transfer_loop_count, dma_transfer_loop_fifo,
      dma_transfer_loop_channel_id, dma_transfer_loop_control_reg,
      pyLdiff_set_bit_15]
  · simp [dma_transfer, hp]

/-- Witness for C10 at a concrete input: a pending halfword transfer of
count 1 with repeat off clears only enable and pending. -/
theorem dma_transfer_frame_witness :
    (dma_transfer
      { channel_id := 0, fifo := false, pending := true, control_reg := 0x8000,
        count := 1, src := 0x100, dst := 0x200, internal_src := 0x100,
        internal_dst := 0x200, internal_count := 1, read16 := fun _ => 0,
        read32 := fun _ => 0, write_log := [], irq_log := [], event := none,
        next_event_id := 0, schedule_log := [] }).2.src = 0x100 ∧
    (dma_transfer
      { channel_id := 0, fifo := false, pending := true, control_reg := 0x8000,
        count := 1, src := 0x100, dst := 0x200, internal_src := 0x100,
        internal_dst := 0x200, internal_count := 1, read16 := fun _ => 0,
        read32 := fun _ => 0, write_log := [], irq_log := [], event := none,
        next_event_id := 0, schedule_log := [] }).2.dst = 0x200 ∧
    pyLdiff (dma_transfer
      { channel_id := 0, fifo := false, pending := true, control_reg := 0x8000,
        count := 1, src := 0x100, dst := 0x200, internal_src := 0x100,
        internal_dst := 0x200, internal_count := 1, read16 := fun _ => 0,
        read32 := fun _ => 0, write_log := [], irq_log := [], event := none,
        next_event_id := 0, schedule_log := [] }).2.control_reg 0x8000 =
      pyLdiff 0x8000 0x8000 := by
  have h := dma_transfer_frame
    { channel_id := 0, fifo := false, pending := true, control_reg := 0x8000,
      count := 1, src := 0x100, dst := 0x200, internal_src := 0x100,
      internal_dst := 0x200, internal_count := 1, read16 := fun _ => 0,
      read32 := fun _ => 0, write_log := [], irq_log := [], event := none,
      next_event_id := 0, schedule_log := [] }
  exact ⟨h.1, h.2.1, h.2.2.2.2.2.1⟩

end PyBoyAdvance
